import Mathlib

/-! CAMotics: tool-path orchestration and cached surface resolution

A shallow embedding of `src/camotics/cutsim/CutSim.cpp` and
`src/camotics/qt/SurfaceThread.cpp`.

State is passed explicitly.  Every operation returns, next to its result and
the new state, the list of calls it made on its collaborators (`Event`), in
the order they were made; the properties below are stated on that list and on
the returned values.  Types and functions declared outside the two source
files (moves, the machine, the interpreters, the mesh codec, the renderer, the
file system) are parameters.
-/

namespace CAMotics

/-! ## Data model -/

/-- Which interpreter a file was handed to (`CutSim.cpp` lines 77-83). -/
inductive InterpKind where
  | tpl
  | gcode
  deriving DecidableEq, Repr

/-- Record of one `Interpreter::read` call made by `computeToolPath`: the loop
index and name of the file, the interpreter chosen, the moves the interpreter
delivered to the sink in emission order, and whether `read` ended by throwing. -/
structure ReadRec (Move : Type) where
  index : Nat
  kind : InterpKind
  file : String
  moves : List Move
  throws : Bool
  deriving DecidableEq, Repr

/-- The stream built in `SurfaceThread::run` lines 48-52: the file opened by
`iopen` and whether a `BZip2Decompressor` was pushed in front of it. -/
structure FilteringIStream where
  bz2 : Bool
  file : String
  deriving DecidableEq, Repr

/-- IEEE-754 doubles as far as `reduceSurface` needs them: finite values are
kept as exact rationals (rounding is not represented), the special values that
a division can produce are explicit. -/
inductive Double where
  | finite (q : ℚ)
  | nan
  | posInf
  | negInf
  deriving DecidableEq

/-- Calls on collaborators, in the order the code makes them. -/
inductive Event (Move : Type) where
  | taskBegin
  | taskUpdate (msg : String)
  | shouldQuit (result : Bool)
  | taskEnd
  | machineReset
  | read (r : ReadRec Move)
  | move (m : Move)
  | logError
  | iopen (file : String)
  | readHeader (inp : FilteringIStream)
  | readBody (inp : FilteringIStream)
  | newElementSurface
  | computeSurface
  | completed
  | reduce
  | logReduction (count : Nat) (r : Double)
  deriving DecidableEq

/-- Modelled from the spec: `ToolPath` is declared outside src/; an ordered,
append-only sequence of moves bound to a tool table. -/
structure ToolPath (Tools Move : Type) where
  tools : Tools
  moves : List Move
  deriving DecidableEq, Repr

/-- Modelled from the spec: `ToolPath::add` appends one move at the end. -/
def ToolPath.add {Tools Move : Type} (p : ToolPath Tools Move) (m : Move) :
    ToolPath Tools Move :=
  { p with moves := p.moves ++ [m] }

/-- The state of a `CutSim` object: the `Machine` base-class state, the
`path` member (a smart pointer, `none` when null), the nesting depth of the
`Task` scopes, the number of `shouldQuit` polls answered so far, and the
`threads` option. -/
structure CutSim (Tools Move Mach : Type) where
  machine : Mach
  path : Option (ToolPath Tools Move)
  depth : Nat
  polls : Nat
  threads : Nat

/-- What one `read` call of an interpreter does, as seen by the orchestrator:
the moves it delivers to the sink, whether it ends by throwing, and the state
in which it leaves the controller side. -/
structure Reading (Move Ctl : Type) where
  moves : List Move
  throws : Bool
  ctl : Ctl

/-- Collaborators of `computeToolPath` that are declared outside src/.
`shouldQuit n` is the answer to the poll made after `n` earlier polls (the
cancellation flag is set asynchronously).  An interpreter sees the file, the
controller-side state and the machine state on entry. -/
structure Collab (Tools Move Mach Ctl : Type) where
  machineReset : Mach → Mach
  machineMove : Mach → Move → Mach
  newController : Mach → Tools → Ctl
  fileExists : String → Bool
  shouldQuit : Nat → Bool
  tplRead : String → Ctl → Mach → Reading Move Ctl
  gcodeRead : String → Ctl → Mach → Reading Move Ctl

section Orchestrator

variable {Tools Move Mach Ctl : Type}

/-! ## Task scopes -/

/-- Modelled from the spec: `Task::begin` pushes a new scope. -/
def Task.begin (s : CutSim Tools Move Mach) : CutSim Tools Move Mach :=
  { s with depth := s.depth + 1 }

/-- Modelled from the spec: `Task::end` pops the current scope. -/
def Task.end_ (s : CutSim Tools Move Mach) : CutSim Tools Move Mach :=
  { s with depth := s.depth - 1 }

/-- Modelled from the spec: `Task::shouldQuit` reads the cancellation flag;
the answer to each poll comes from the environment. -/
def Task.shouldQuit (E : Collab Tools Move Mach Ctl) (s : CutSim Tools Move Mach) :
    Bool × CutSim Tools Move Mach :=
  (E.shouldQuit s.polls, { s with polls := s.polls + 1 })

/-- Modelled from the spec: `String::endsWith` of cbang. -/
def endsWith (s part : String) : Bool :=
  part.toList.isSuffixOf s.toList

/-! ## CutSim.cpp -/

/-- Embedding of `CutSim::move` (lines 141-144): `Machine::move(move); path->add(move);`.
The first component is `true` when the call throws, which is the case when
`path` is null (the machine has been moved by then). -/
def CutSim.move (E : Collab Tools Move Mach Ctl) (s : CutSim Tools Move Mach) (m : Move) :
    Bool × CutSim Tools Move Mach :=
  let s1 := { s with machine := E.machineMove s.machine m }
  match s1.path with
  | some p => (false, { s1 with path := some (p.add m) })
  | none => (true, s1)

/-- An interpreter delivering its moves: each one goes through `CutSim::move`;
a throwing sink ends the delivery. -/
def deliver (E : Collab Tools Move Mach Ctl) :
    List Move → CutSim Tools Move Mach → Bool × CutSim Tools Move Mach × List (Event Move)
  | [], s => (false, s, [])
  | m :: ms, s =>
    let r := CutSim.move E s m
    if r.1 then (true, r.2, [Event.move m])
    else
      let d := deliver E ms r.2
      (d.1, d.2.1, Event.move m :: d.2.2)

/-- Result of the guarded loop of `computeToolPath`. -/
structure LoopOut (Tools Move Mach Ctl : Type) where
  thrown : Bool
  ctl : Ctl
  st : CutSim Tools Move Mach
  ev : List (Event Move)

/-- The suffix test of line 77: which interpreter gets the file. -/
def interpreterFor (f : String) : InterpKind :=
  if endsWith f ".tpl" then InterpKind.tpl else InterpKind.gcode

/-- The `read` call of lines 77-83 on the interpreter chosen for the file. -/
def readFile (E : Collab Tools Move Mach Ctl) (f : String) (c : Ctl) (m : Mach) :
    Reading Move Ctl :=
  match interpreterFor f with
  | InterpKind.tpl => E.tplRead f c m
  | InterpKind.gcode => E.gcodeRead f c m

/-- The events that open the interpretation of an existing file. -/
def fileHead (i : Nat) (f : String) (r : Reading Move Ctl) : List (Event Move) :=
  [Event.shouldQuit false, Event.taskUpdate ("Running " ++ f),
    Event.read ⟨i, interpreterFor f, f, r.moves, r.throws⟩]

/-- The loop of `computeToolPath` (lines 72-84), started at index `i` on the
files from that index on.  `shouldQuit` is polled only when a file is left. -/
def interpretFiles (E : Collab Tools Move Mach Ctl) :
    List String → Nat → Ctl → CutSim Tools Move Mach → LoopOut Tools Move Mach Ctl
  | [], _, c, s => ⟨false, c, s, []⟩
  | f :: rest, i, c, s =>
    let q := Task.shouldQuit E s
    if q.1 then ⟨false, c, q.2, [Event.shouldQuit true]⟩
    else if !E.fileExists f then
      let o := interpretFiles E rest (i + 1) c q.2
      { o with ev := Event.shouldQuit false :: o.ev }
    else
      let r := readFile E f c q.2.machine
      let d := deliver E r.moves q.2
      if d.1 || r.throws then ⟨true, r.ctl, d.2.1, fileHead i f r ++ d.2.2⟩
      else
        let o := interpretFiles E rest (i + 1) r.ctl d.2.1
        { o with ev := fileHead i f r ++ d.2.2 ++ o.ev }

/-- Embedding of `CutSim::computeToolPath(tools, files)` (lines 61-89).  `CATCH_ERROR`
logs the error of a throwing loop and lets the function go on. -/
def computeToolPath (E : Collab Tools Move Mach Ctl) (tools : Tools) (files : List String)
    (s : CutSim Tools Move Mach) :
    Option (ToolPath Tools Move) × CutSim Tools Move Mach × List (Event Move) :=
  let s1 := Task.begin s
  let s2 := { s1 with machine := E.machineReset s1.machine }
  let c := E.newController s2.machine tools
  let s3 := { s2 with path := some ⟨tools, []⟩ }
  let o := interpretFiles E files 0 c s3
  let caught := if o.thrown then [Event.logError] else []
  let s4 := Task.end_ o.st
  (s4.path, { s4 with path := none },
    [Event.taskBegin, Event.machineReset] ++ o.ev ++ caught ++ [Event.taskEnd])

/-- The state after an interpreter has delivered `ms` to the sink from a state
whose path is `p`, one poll after `s`. -/
def advance (E : Collab Tools Move Mach Ctl) (s : CutSim Tools Move Mach)
    (p : ToolPath Tools Move) (ms : List Move) : CutSim Tools Move Mach :=
  { s with machine := ms.foldl E.machineMove s.machine,
           path := some ⟨p.tools, p.moves ++ ms⟩,
           polls := s.polls + 1 }

/-- The state in which the loop of `computeToolPath` starts (lines 65-68). -/
def loopStart (E : Collab Tools Move Mach Ctl) (tools : Tools) (s : CutSim Tools Move Mach) :
    CutSim Tools Move Mach :=
  { s with depth := s.depth + 1, machine := E.machineReset s.machine,
           path := some ⟨tools, []⟩ }

end Orchestrator

/-! ## Surfaces -/

/-- Conversion of an element count to `double` (exact). -/
def Double.ofCount (n : Nat) : Double := Double.finite n

/-- Subtraction of doubles. -/
def Double.sub : Double → Double → Double
  | Double.finite a, Double.finite b => Double.finite (a - b)
  | Double.nan, _ => Double.nan
  | _, Double.nan => Double.nan
  | Double.posInf, Double.posInf => Double.nan
  | Double.negInf, Double.negInf => Double.nan
  | Double.posInf, _ => Double.posInf
  | Double.negInf, _ => Double.negInf
  | Double.finite _, Double.posInf => Double.negInf
  | Double.finite _, Double.negInf => Double.posInf

/-- Division of doubles.  A zero divisor is `+0.0` (the sign of zero is not
represented; a converted count is never `-0.0`): `0/0` is NaN and a nonzero
value over zero is an infinity. -/
def Double.div : Double → Double → Double
  | Double.finite a, Double.finite b =>
    if b = 0 then (if a = 0 then Double.nan else if 0 < a then Double.posInf else Double.negInf)
    else Double.finite (a / b)
  | Double.nan, _ => Double.nan
  | _, Double.nan => Double.nan
  | Double.finite _, _ => Double.finite 0
  | Double.posInf, Double.finite b => if 0 ≤ b then Double.posInf else Double.negInf
  | Double.negInf, Double.finite b => if 0 ≤ b then Double.negInf else Double.posInf
  | _, _ => Double.nan

/-- Multiplication of doubles. -/
def Double.mul : Double → Double → Double
  | Double.finite a, Double.finite b => Double.finite (a * b)
  | Double.nan, _ => Double.nan
  | _, Double.nan => Double.nan
  | Double.posInf, Double.finite b =>
    if b = 0 then Double.nan else if 0 < b then Double.posInf else Double.negInf
  | Double.negInf, Double.finite b =>
    if b = 0 then Double.nan else if 0 < b then Double.negInf else Double.posInf
  | Double.finite a, Double.posInf =>
    if a = 0 then Double.nan else if 0 < a then Double.posInf else Double.negInf
  | Double.finite a, Double.negInf =>
    if a = 0 then Double.nan else if 0 < a then Double.negInf else Double.posInf
  | Double.posInf, Double.posInf => Double.posInf
  | Double.negInf, Double.negInf => Double.posInf
  | Double.posInf, Double.negInf => Double.negInf
  | Double.negInf, Double.posInf => Double.negInf

/-- Modelled from the spec: a `Simulation` bundles a tool path, a time cutoff,
a workpiece and a target resolution. -/
structure Simulation (Tools Move Wp : Type) where
  path : ToolPath Tools Move
  time : Double
  workpiece : Wp
  resolution : Double

/-- The `ToolSweep(sim.path, sim.time)` built on line 106. -/
structure ToolSweep (Tools Move : Type) where
  path : ToolPath Tools Move
  time : Double

/-- The `CutWorkpiece(sweep, sim.workpiece)` built on line 106. -/
structure CutWorkpiece (Tools Move Wp : Type) where
  sweep : ToolSweep Tools Move
  workpiece : Wp

/-- Collaborators of the surface code that are declared outside src/: the
renderer, the surface operations, the file system and the mesh codec.  A step
that can throw returns `Except`; `iopen` is `true` when a stream is returned
and `false` when the call throws. -/
structure SurfaceEnv (Tools Move Wp Stl Surf : Type) where
  render : CutWorkpiece Tools Move Wp → Nat → Double → Except String (Option Surf)
  getCount : Surf → Nat
  reduce : Surf → Surf
  swapExtension : String → String → String
  fileExists : String → Bool
  iopen : String → Bool
  readHeader : FilteringIStream → Except String Stl
  getHash : Stl → String
  computeHash : Simulation Tools Move Wp → String
  readBody : FilteringIStream → Stl → Except String Stl
  newElementSurface : Stl → Except String Surf

/-- The state of a `SurfaceThread`: the shared `cutSim`, the name of the
simulation-description file, the requested simulation and the `surface`
member (`none` when null). -/
structure SurfaceThread (Tools Move Mach Wp Surf : Type) where
  cutSim : CutSim Tools Move Mach
  filename : String
  sim : Simulation Tools Move Wp
  surface : Option Surf

section Surface

variable {Tools Move Mach Wp Stl Surf : Type}

/-- Embedding of `CutSim::computeSurface(sim)` (lines 104-111): the result of the renderer,
a possibly null surface, or the error it throws. -/
def CutSim.computeSurface (R : SurfaceEnv Tools Move Wp Stl Surf)
    (s : CutSim Tools Move Mach) (sim : Simulation Tools Move Wp) :
    Except String (Option Surf) :=
  let cutWP : CutWorkpiece Tools Move Wp := ⟨⟨sim.path, sim.time⟩, sim.workpiece⟩
  R.render cutWP s.threads sim.resolution

/-- The reduction percentage of line 126:
`(double)(startCount - count) / startCount * 100`. -/
def reductionPercent (startCount : Double) (count : Nat) : Double :=
  ((startCount.sub (Double.ofCount count)).div startCount).mul (Double.ofCount 100)

/-- Embedding of `CutSim::reduceSurface(surface)` (lines 115-132).  `count` is an
`unsigned`; the last event is the informational log line with the element
count and the percentage. -/
def CutSim.reduceSurface (R : SurfaceEnv Tools Move Wp Stl Surf) (surface : Surf)
    (s : CutSim Tools Move Mach) : Surf × CutSim Tools Move Mach × List (Event Move) :=
  let startCount := Double.ofCount (R.getCount surface)
  let s1 := Task.begin s
  let surface1 := R.reduce surface
  let count := R.getCount surface1 % 2 ^ 32
  let r := reductionPercent startCount count
  let s2 := Task.end_ s1
  (surface1, s2,
    [Event.taskBegin, Event.taskUpdate "Reducing...", Event.reduce, Event.taskEnd,
      Event.logReduction count r])

/-! ## SurfaceThread.cpp -/

/-- Result of a guarded block of `SurfaceThread::run`. -/
structure TryOut (Tools Move Mach Wp Surf : Type) where
  thrown : Bool
  st : SurfaceThread Tools Move Mach Wp Surf
  ev : List (Event Move)

/-- Line 42: the candidate cache path. -/
def SurfaceThread.stlCache (R : SurfaceEnv Tools Move Wp Stl Surf)
    (t : SurfaceThread Tools Move Mach Wp Surf) : String :=
  R.swapExtension t.filename "stl"

/-- Line 43: whether the plain cache file exists. -/
def SurfaceThread.hasCache (R : SurfaceEnv Tools Move Wp Stl Surf)
    (t : SurfaceThread Tools Move Mach Wp Surf) : Bool :=
  R.fileExists (SurfaceThread.stlCache R t)

/-- Line 44: whether the compressed cache file exists. -/
def SurfaceThread.hasBZ2Cache (R : SurfaceEnv Tools Move Wp Stl Surf)
    (t : SurfaceThread Tools Move Mach Wp Surf) : Bool :=
  R.fileExists (SurfaceThread.stlCache R t ++ ".bz2")

/-- Lines 47-52: the file chosen and the stream built over it, with the
decompressor pushed when the compressed file exists. -/
def SurfaceThread.cacheStream (R : SurfaceEnv Tools Move Wp Stl Surf)
    (t : SurfaceThread Tools Move Mach Wp Surf) : FilteringIStream :=
  ⟨SurfaceThread.hasBZ2Cache R t,
    SurfaceThread.stlCache R t ++ (if SurfaceThread.hasBZ2Cache R t then ".bz2" else "")⟩

/-- The guarded block of lines 42-61: the cache lookup. -/
def SurfaceThread.lookup (R : SurfaceEnv Tools Move Wp Stl Surf)
    (t : SurfaceThread Tools Move Mach Wp Surf) : TryOut Tools Move Mach Wp Surf :=
  if SurfaceThread.hasCache R t || SurfaceThread.hasBZ2Cache R t then
    let inp := SurfaceThread.cacheStream R t
    if R.iopen inp.file then
      match R.readHeader inp with
      | Except.error _ => ⟨true, t, [Event.iopen inp.file, Event.readHeader inp]⟩
      | Except.ok stl =>
        if R.getHash stl = R.computeHash t.sim then
          match R.readBody inp stl with
          | Except.error _ =>
            ⟨true, t, [Event.iopen inp.file, Event.readHeader inp, Event.readBody inp]⟩
          | Except.ok body =>
            match R.newElementSurface body with
            | Except.error _ =>
              ⟨true, t, [Event.iopen inp.file, Event.readHeader inp, Event.readBody inp,
                Event.newElementSurface]⟩
            | Except.ok surf =>
              ⟨false, { t with surface := some surf },
                [Event.iopen inp.file, Event.readHeader inp, Event.readBody inp,
                  Event.newElementSurface]⟩
        else ⟨false, t, [Event.iopen inp.file, Event.readHeader inp]⟩
    else ⟨true, t, [Event.iopen inp.file]⟩
  else ⟨false, t, []⟩

/-- Lines 40-63 of `SurfaceThread::run`: the lookup inside its `Task` scope,
with `CATCH_ERROR` logging a thrown error. -/
def SurfaceThread.lookupPhase (R : SurfaceEnv Tools Move Wp Stl Surf)
    (t : SurfaceThread Tools Move Mach Wp Surf) :
    SurfaceThread Tools Move Mach Wp Surf × List (Event Move) :=
  let t1 := { t with cutSim := Task.begin t.cutSim }
  let l := SurfaceThread.lookup R t1
  let caught := if l.thrown then [Event.logError] else []
  ({ l.st with cutSim := Task.end_ l.st.cutSim },
    [Event.taskBegin] ++ l.ev ++ caught ++ [Event.taskEnd])

/-- Lines 66-69 of `SurfaceThread::run`: the computation, made when the
surface is null, with `CATCH_ERROR` logging a thrown error. -/
def SurfaceThread.computePhase (R : SurfaceEnv Tools Move Wp Stl Surf)
    (t : SurfaceThread Tools Move Mach Wp Surf) :
    SurfaceThread Tools Move Mach Wp Surf × List (Event Move) :=
  match t.surface with
  | some _ => (t, [])
  | none =>
    match CutSim.computeSurface R t.cutSim t.sim with
    | Except.ok surf => ({ t with surface := surf }, [Event.computeSurface])
    | Except.error _ => (t, [Event.computeSurface, Event.logError])

/-- Embedding of `SurfaceThread::run` (lines 38-72). -/
def SurfaceThread.run (R : SurfaceEnv Tools Move Wp Stl Surf)
    (t : SurfaceThread Tools Move Mach Wp Surf) :
    SurfaceThread Tools Move Mach Wp Surf × List (Event Move) :=
  let l := SurfaceThread.lookupPhase R t
  let c := SurfaceThread.computePhase R l.1
  (c.1, l.2 ++ c.2 ++ [Event.completed])

end Surface

/-! ## Reading the event list -/

section Events

variable {Move : Type}

/-- The record of an interpreter call, for a `read` event. -/
def Event.asRead : Event Move → Option (ReadRec Move)
  | Event.read r => some r
  | _ => none

/-- The move of a `move` event. -/
def Event.asMove : Event Move → Option Move
  | Event.move m => some m
  | _ => none

/-- The answer of a `shouldQuit` event. -/
def Event.asPoll : Event Move → Option Bool
  | Event.shouldQuit b => some b
  | _ => none

/-- The file of an `iopen` event. -/
def Event.asOpen : Event Move → Option String
  | Event.iopen f => some f
  | _ => none

/-- The stream a codec call (`readHeader`, `readBody`) reads from. -/
def Event.asStream : Event Move → Option FilteringIStream
  | Event.readHeader inp => some inp
  | Event.readBody inp => some inp
  | _ => none

/-- Recogniser of `Task::begin`. -/
def Event.isBegin : Event Move → Bool
  | Event.taskBegin => true
  | _ => false

/-- Recogniser of `Task::end`. -/
def Event.isEnd : Event Move → Bool
  | Event.taskEnd => true
  | _ => false

/-- Recogniser of a logged error. -/
def Event.isError : Event Move → Bool
  | Event.logError => true
  | _ => false

/-- Recogniser of a `CutSim::computeSurface` call. -/
def Event.isCompute : Event Move → Bool
  | Event.computeSurface => true
  | _ => false

/-- Recogniser of the `completed()` signal. -/
def Event.isCompleted : Event Move → Bool
  | Event.completed => true
  | _ => false

/-- Recogniser of a `readBody` call. -/
def Event.isReadBody : Event Move → Bool
  | Event.readBody _ => true
  | _ => false

/-- Recogniser of the surface being built from a cache record. -/
def Event.isNewSurface : Event Move → Bool
  | Event.newElementSurface => true
  | _ => false

/-- The interpreter calls among the events, in order. -/
def reads (ev : List (Event Move)) : List (ReadRec Move) :=
  ev.filterMap Event.asRead

/-- The moves that went through `CutSim::move`, in order. -/
def sinkMoves (ev : List (Event Move)) : List Move :=
  ev.filterMap Event.asMove

/-- The answers to the `shouldQuit` polls, in order. -/
def polls (ev : List (Event Move)) : List Bool :=
  ev.filterMap Event.asPoll

/-- The files opened, in order. -/
def opens (ev : List (Event Move)) : List String :=
  ev.filterMap Event.asOpen

/-- The streams the codec read from, in order. -/
def streams (ev : List (Event Move)) : List FilteringIStream :=
  ev.filterMap Event.asStream

/-- The moves emitted by a sequence of interpreter calls, concatenated in
call order and, within a call, in emission order. -/
def emitted (rs : List (ReadRec Move)) : List Move :=
  rs.flatMap ReadRec.moves

end Events

/-! ## Concrete collaborators used to evaluate the definitions -/

/-- A set of collaborators on natural numbers: `missing.nc` does not exist,
`bad.nc` emits one move and then fails, every other G-code file emits three
moves and every script two; no cancellation. -/
def demoCollab : Collab Nat Nat Nat Nat where
  machineReset := fun _ => 0
  machineMove := fun m x => m + x
  newController := fun _ t => t
  fileExists := fun f => f != "missing.nc"
  shouldQuit := fun _ => false
  tplRead := fun _ c _ => ⟨[10, 11], false, c + 1⟩
  gcodeRead := fun f c m =>
    if f = "bad.nc" then ⟨[7], true, c⟩ else ⟨[1, 2, m], false, c + 1⟩

/-- The collaborators of `demoCollab` with cancellation observed by the poll
number `n` and every later one. -/
def demoQuitAt (n : Nat) : Collab Nat Nat Nat Nat :=
  { demoCollab with shouldQuit := fun k => decide (n ≤ k) }

/-- A surface environment on natural numbers and strings: the candidate path
is `part.stl`; `plain` and `bz2` say which cache files exist, `stored` is the
hash in the header, `bodyOk` whether the body reads; the requested simulation
hashes to `h1`, a cached surface is `7` and a rendered one `42`. -/
def demoEnv (plain bz2 : Bool) (stored : String) (bodyOk : Bool) :
    SurfaceEnv Nat Nat Nat String Nat where
  render := fun _ _ _ => Except.ok (some 42)
  getCount := fun s => s
  reduce := fun s => s / 2
  swapExtension := fun _ ext => "part." ++ ext
  fileExists := fun f => (f == "part.stl" && plain) || (f == "part.stl.bz2" && bz2)
  iopen := fun _ => true
  readHeader := fun _ => Except.ok stored
  getHash := fun stl => stl
  computeHash := fun _ => "h1"
  readBody := fun _ stl => if bodyOk then Except.ok stl else Except.error "truncated"
  newElementSurface := fun _ => Except.ok 7

/-- An idle `CutSim` for the concrete evaluations. -/
def demoCutSim : CutSim Nat Nat Nat := ⟨5, none, 0, 0, 4⟩

/-- A fresh worker for the concrete evaluations: its surface is unset. -/
def demoThread : SurfaceThread Nat Nat Nat Nat Nat :=
  ⟨demoCutSim, "part.xml", ⟨⟨9, [1, 2]⟩, Double.finite 1, 3, Double.finite 1⟩, none⟩

/-! ## Lemmas on the interpretation loop -/

section LoopLemmas

variable {Tools Move Mach Ctl : Type}

theorem deliver_some (E : Collab Tools Move Mach Ctl) :
    ∀ (ms : List Move) (s : CutSim Tools Move Mach) (p : ToolPath Tools Move),
      s.path = some p →
      deliver E ms s = (false,
        { s with machine := ms.foldl E.machineMove s.machine,
                 path := some ⟨p.tools, p.moves ++ ms⟩ },
        ms.map Event.move) := by
  intro ms
  induction ms with
  | nil =>
    intro s p h
    cases s
    cases p
    simp_all [deliver]
  | cons m ms ih =>
    intro s p h
    cases s
    cases p
    simp only at h
    subst h
    simp only [deliver, CutSim.move, ToolPath.add]
    rw [ih _ ⟨_, _⟩ rfl]
    simp

theorem interpretFiles_quit (E : Collab Tools Move Mach Ctl) (f : String) (rest : List String)
    (i : Nat) (c : Ctl) (s : CutSim Tools Move Mach) (hq : E.shouldQuit s.polls = true) :
    interpretFiles E (f :: rest) i c s
      = ⟨false, c, { s with polls := s.polls + 1 }, [Event.shouldQuit true]⟩ := by
  simp [interpretFiles, Task.shouldQuit, hq]

theorem interpretFiles_skip (E : Collab Tools Move Mach Ctl) (f : String) (rest : List String)
    (i : Nat) (c : Ctl) (s : CutSim Tools Move Mach) (hq : E.shouldQuit s.polls = false)
    (he : E.fileExists f = false) :
    interpretFiles E (f :: rest) i c s
      = { interpretFiles E rest (i + 1) c { s with polls := s.polls + 1 } with
          ev := Event.shouldQuit false
            :: (interpretFiles E rest (i + 1) c { s with polls := s.polls + 1 }).ev } := by
  simp [interpretFiles, Task.shouldQuit, hq, he]

theorem interpretFiles_fail (E : Collab Tools Move Mach Ctl) (f : String) (rest : List String)
    (i : Nat) (c : Ctl) (s : CutSim Tools Move Mach) (p : ToolPath Tools Move)
    (hp : s.path = some p) (hq : E.shouldQuit s.polls = false)
    (he : E.fileExists f = true) (ht : (readFile E f c s.machine).throws = true) :
    interpretFiles E (f :: rest) i c s
      = ⟨true, (readFile E f c s.machine).ctl, advance E s p (readFile E f c s.machine).moves,
          fileHead i f (readFile E f c s.machine)
            ++ (readFile E f c s.machine).moves.map Event.move⟩ := by
  have hd := deliver_some E (readFile E f c s.machine).moves { s with polls := s.polls + 1 } p hp
  simp only [interpretFiles, Task.shouldQuit, hq, he, hd, ht, advance]
  simp

theorem interpretFiles_next (E : Collab Tools Move Mach Ctl) (f : String) (rest : List String)
    (i : Nat) (c : Ctl) (s : CutSim Tools Move Mach) (p : ToolPath Tools Move)
    (hp : s.path = some p) (hq : E.shouldQuit s.polls = false)
    (he : E.fileExists f = true) (ht : (readFile E f c s.machine).throws = false) :
    interpretFiles E (f :: rest) i c s
      = { interpretFiles E rest (i + 1) (readFile E f c s.machine).ctl
            (advance E s p (readFile E f c s.machine).moves) with
          ev := fileHead i f (readFile E f c s.machine)
            ++ (readFile E f c s.machine).moves.map Event.move
            ++ (interpretFiles E rest (i + 1) (readFile E f c s.machine).ctl
                  (advance E s p (readFile E f c s.machine).moves)).ev } := by
  have hd := deliver_some E (readFile E f c s.machine).moves { s with polls := s.polls + 1 } p hp
  simp only [interpretFiles, Task.shouldQuit, hq, he, hd, ht, advance]
  simp

/-- Case analysis on the loop from a state whose path is set. -/
theorem interpretFiles_cases (E : Collab Tools Move Mach Ctl)
    (P : List String → Nat → Ctl → CutSim Tools Move Mach → ToolPath Tools Move →
      LoopOut Tools Move Mach Ctl → Prop)
    (hnil : ∀ i c s p, s.path = some p → P [] i c s p ⟨false, c, s, []⟩)
    (hquit : ∀ f rest i c s p, s.path = some p → E.shouldQuit s.polls = true →
      P (f :: rest) i c s p ⟨false, c, { s with polls := s.polls + 1 }, [Event.shouldQuit true]⟩)
    (hskip : ∀ f rest i c s p, s.path = some p → E.shouldQuit s.polls = false →
      E.fileExists f = false →
      P rest (i + 1) c { s with polls := s.polls + 1 } p
        (interpretFiles E rest (i + 1) c { s with polls := s.polls + 1 }) →
      P (f :: rest) i c s p
        { interpretFiles E rest (i + 1) c { s with polls := s.polls + 1 } with
          ev := Event.shouldQuit false
            :: (interpretFiles E rest (i + 1) c { s with polls := s.polls + 1 }).ev })
    (hfail : ∀ f rest i c s p, s.path = some p → E.shouldQuit s.polls = false →
      E.fileExists f = true → (readFile E f c s.machine).throws = true →
      P (f :: rest) i c s p
        ⟨true, (readFile E f c s.machine).ctl, advance E s p (readFile E f c s.machine).moves,
          fileHead i f (readFile E f c s.machine)
            ++ (readFile E f c s.machine).moves.map Event.move⟩)
    (hnext : ∀ f rest i c s p, s.path = some p → E.shouldQuit s.polls = false →
      E.fileExists f = true → (readFile E f c s.machine).throws = false →
      P rest (i + 1) (readFile E f c s.machine).ctl
        (advance E s p (readFile E f c s.machine).moves)
        ⟨p.tools, p.moves ++ (readFile E f c s.machine).moves⟩
        (interpretFiles E rest (i + 1) (readFile E f c s.machine).ctl
          (advance E s p (readFile E f c s.machine).moves)) →
      P (f :: rest) i c s p
        { interpretFiles E rest (i + 1) (readFile E f c s.machine).ctl
            (advance E s p (readFile E f c s.machine).moves) with
          ev := fileHead i f (readFile E f c s.machine)
            ++ (readFile E f c s.machine).moves.map Event.move
            ++ (interpretFiles E rest (i + 1) (readFile E f c s.machine).ctl
                  (advance E s p (readFile E f c s.machine).moves)).ev }) :
    ∀ files i c s p, s.path = some p → P files i c s p (interpretFiles E files i c s) := by
  intro files
  induction files with
  | nil =>
    intro i c s p hp
    exact hnil i c s p hp
  | cons f rest ih =>
    intro i c s p hp
    cases hq : E.shouldQuit s.polls with
    | true =>
      rw [interpretFiles_quit E f rest i c s hq]
      exact hquit f rest i c s p hp hq
    | false =>
      cases he : E.fileExists f with
      | false =>
        rw [interpretFiles_skip E f rest i c s hq he]
        exact hskip f rest i c s p hp hq he (ih _ _ _ p hp)
      | true =>
        cases ht : (readFile E f c s.machine).throws with
        | true =>
          rw [interpretFiles_fail E f rest i c s p hp hq he ht]
          exact hfail f rest i c s p hp hq he ht
        | false =>
          rw [interpretFiles_next E f rest i c s p hp hq he ht]
          exact hnext f rest i c s p hp hq he ht (ih _ _ _ _ rfl)

/-! ### Events of a delivery -/

@[simp]
theorem reads_append (a b : List (Event Move)) : reads (a ++ b) = reads a ++ reads b := by
  simp [reads]

@[simp]
theorem sinkMoves_append (a b : List (Event Move)) :
    sinkMoves (a ++ b) = sinkMoves a ++ sinkMoves b := by
  simp [sinkMoves]

@[simp]
theorem polls_append (a b : List (Event Move)) : polls (a ++ b) = polls a ++ polls b := by
  simp [polls]

@[simp]
theorem emitted_append (a b : List (ReadRec Move)) :
    emitted (a ++ b) = emitted a ++ emitted b := by
  simp [emitted]

@[simp]
theorem reads_map_move (ms : List Move) : reads (ms.map Event.move) = [] := by
  induction ms with
  | nil => rfl
  | cons m ms _ => simp [reads, Event.asRead]

@[simp]
theorem polls_map_move (ms : List Move) :
    polls (ms.map (Event.move : Move → Event Move)) = [] := by
  induction ms with
  | nil => rfl
  | cons m ms _ => simp [polls, Event.asPoll]

@[simp]
theorem sinkMoves_map_move (ms : List Move) : sinkMoves (ms.map Event.move) = ms := by
  induction ms with
  | nil => rfl
  | cons m ms ih =>
    have h : sinkMoves (Event.move m :: ms.map Event.move) = m :: sinkMoves (ms.map Event.move) := rfl
    simp only [List.map_cons, h, ih]

@[simp]
theorem countP_isBegin_map_move (ms : List Move) :
    (ms.map (Event.move : Move → Event Move)).countP Event.isBegin = 0 := by
  induction ms with
  | nil => rfl
  | cons m ms _ => simp [Event.isBegin]

@[simp]
theorem countP_isEnd_map_move (ms : List Move) :
    (ms.map (Event.move : Move → Event Move)).countP Event.isEnd = 0 := by
  induction ms with
  | nil => rfl
  | cons m ms _ => simp [Event.isEnd]

@[simp]
theorem countP_isError_map_move (ms : List Move) :
    (ms.map (Event.move : Move → Event Move)).countP Event.isError = 0 := by
  induction ms with
  | nil => rfl
  | cons m ms _ => simp [Event.isError]

@[simp]
theorem reads_fileHead (i : Nat) (f : String) (r : Reading Move Ctl) :
    reads (fileHead i f r) = [⟨i, interpreterFor f, f, r.moves, r.throws⟩] := by
  simp [reads, fileHead, Event.asRead]

@[simp]
theorem sinkMoves_fileHead (i : Nat) (f : String) (r : Reading Move Ctl) :
    sinkMoves (fileHead i f r) = [] := by
  simp [sinkMoves, fileHead, Event.asMove]

@[simp]
theorem polls_fileHead (i : Nat) (f : String) (r : Reading Move Ctl) :
    polls (fileHead i f r) = [false] := by
  simp [polls, fileHead, Event.asPoll]

@[simp]
theorem countP_isBegin_fileHead (i : Nat) (f : String) (r : Reading Move Ctl) :
    (fileHead i f r).countP Event.isBegin = 0 := by
  simp [fileHead, Event.isBegin]

@[simp]
theorem countP_isEnd_fileHead (i : Nat) (f : String) (r : Reading Move Ctl) :
    (fileHead i f r).countP Event.isEnd = 0 := by
  simp [fileHead, Event.isEnd]

@[simp]
theorem countP_isError_fileHead (i : Nat) (f : String) (r : Reading Move Ctl) :
    (fileHead i f r).countP Event.isError = 0 := by
  simp [fileHead, Event.isError]

/-! ### Invariants of the loop -/

/-- The path after the loop is the path before it followed by the moves of the
interpreter calls, in order. -/
theorem interpretFiles_path (E : Collab Tools Move Mach Ctl) :
    ∀ files i c (s : CutSim Tools Move Mach) p, s.path = some p →
      (interpretFiles E files i c s).st.path
        = some ⟨p.tools, p.moves ++ emitted (reads (interpretFiles E files i c s).ev)⟩ := by
  apply interpretFiles_cases E
    (fun _ _ _ _ p o => o.st.path = some ⟨p.tools, p.moves ++ emitted (reads o.ev)⟩)
  · intro i c s p hp
    simpa [reads, emitted] using hp
  · intro f rest i c s p hp _
    simpa [reads, emitted, Event.asRead] using hp
  · intro f rest i c s p _ _ _ ih
    simpa [reads, Event.asRead] using ih
  · intro f rest i c s p _ _ _ _
    simp [advance, emitted]
  · intro f rest i c s p _ _ _ _ ih
    simpa [emitted, List.append_assoc] using ih

/-- The loop leaves the scope depth and the thread count alone and answers one
poll per `shouldQuit` event. -/
theorem interpretFiles_frame (E : Collab Tools Move Mach Ctl) :
    ∀ files i c (s : CutSim Tools Move Mach) p, s.path = some p →
      (interpretFiles E files i c s).st.depth = s.depth
      ∧ (interpretFiles E files i c s).st.threads = s.threads
      ∧ (interpretFiles E files i c s).st.polls
          = s.polls + (polls (interpretFiles E files i c s).ev).length := by
  apply interpretFiles_cases E
    (fun _ _ _ s _ o => o.st.depth = s.depth ∧ o.st.threads = s.threads
      ∧ o.st.polls = s.polls + (polls o.ev).length)
  · intro i c s p _
    simp [polls]
  · intro f rest i c s p _ _
    simp [polls, Event.asPoll]
  · intro f rest i c s p _ _ _ ih
    obtain ⟨h1, h2, h3⟩ := ih
    refine ⟨h1, h2, ?_⟩
    simp only [h3]
    simp [polls, Event.asPoll]
    omega
  · intro f rest i c s p _ _ _ _
    simp [advance]
  · intro f rest i c s p _ _ _ _ ih
    obtain ⟨h1, h2, h3⟩ := ih
    refine ⟨h1, h2, ?_⟩
    simp only [h3]
    simp [advance]
    omega

/-- Every move of an interpreter call went through the sink, and the machine
state after the loop is the one the sink built from those moves. -/
theorem interpretFiles_sink (E : Collab Tools Move Mach Ctl) :
    ∀ files i c (s : CutSim Tools Move Mach) p, s.path = some p →
      sinkMoves (interpretFiles E files i c s).ev
          = emitted (reads (interpretFiles E files i c s).ev)
      ∧ (interpretFiles E files i c s).st.machine
          = (sinkMoves (interpretFiles E files i c s).ev).foldl E.machineMove s.machine := by
  apply interpretFiles_cases E
    (fun _ _ _ s _ o => sinkMoves o.ev = emitted (reads o.ev)
      ∧ o.st.machine = (sinkMoves o.ev).foldl E.machineMove s.machine)
  · intro i c s p _
    simp [sinkMoves, reads, emitted]
  · intro f rest i c s p _ _
    simp [sinkMoves, reads, emitted, Event.asMove, Event.asRead]
  · intro f rest i c s p _ _ _ ih
    simpa [sinkMoves, reads, Event.asMove, Event.asRead] using ih
  · intro f rest i c s p _ _ _ _
    simp [advance, emitted]
  · intro f rest i c s p _ _ _ _ ih
    obtain ⟨h1, h2⟩ := ih
    refine ⟨?_, ?_⟩
    · simp [h1, emitted]
    · simp only [h2]
      simp [advance, List.foldl_append]

/-- The loop opens and closes no `Task` scope and logs no error. -/
theorem interpretFiles_noScope (E : Collab Tools Move Mach Ctl) :
    ∀ files i c (s : CutSim Tools Move Mach) p, s.path = some p →
      (interpretFiles E files i c s).ev.countP Event.isBegin = 0
      ∧ (interpretFiles E files i c s).ev.countP Event.isEnd = 0
      ∧ (interpretFiles E files i c s).ev.countP Event.isError = 0 := by
  apply interpretFiles_cases E
    (fun _ _ _ _ _ o => o.ev.countP Event.isBegin = 0 ∧ o.ev.countP Event.isEnd = 0
      ∧ o.ev.countP Event.isError = 0)
  · intro i c s p _
    simp
  · intro f rest i c s p _ _
    simp [Event.isBegin, Event.isEnd, Event.isError]
  · intro f rest i c s p _ _ _ ih
    simpa [Event.isBegin, Event.isEnd, Event.isError] using ih
  · intro f rest i c s p _ _ _ _
    simp [List.countP_append, Event.isBegin, Event.isEnd, Event.isError]
  · intro f rest i c s p _ _ _ _ ih
    simpa [List.countP_append, Event.isBegin, Event.isEnd, Event.isError] using ih

/-- The loop throws exactly when an interpreter call threw. -/
theorem interpretFiles_thrown (E : Collab Tools Move Mach Ctl) :
    ∀ files i c (s : CutSim Tools Move Mach) p, s.path = some p →
      ((interpretFiles E files i c s).thrown = true
        ↔ ∃ r ∈ reads (interpretFiles E files i c s).ev, r.throws = true) := by
  apply interpretFiles_cases E
    (fun _ _ _ _ _ o => (o.thrown = true ↔ ∃ r ∈ reads o.ev, r.throws = true))
  · intro i c s p _
    simp [reads]
  · intro f rest i c s p _ _
    simp [reads, Event.asRead]
  · intro f rest i c s p _ _ _ ih
    simpa [reads, Event.asRead] using ih
  · intro f rest i c s p _ _ _ ht
    simp [ht]
  · intro f rest i c s p _ _ _ ht ih
    simp [ht, ih]

/-- Every interpreter call of the loop is made for an existing file of the
list, at its index, on the interpreter chosen by its suffix, and records what
that interpreter did. -/
theorem interpretFiles_reads (E : Collab Tools Move Mach Ctl) :
    ∀ files i c (s : CutSim Tools Move Mach) p, s.path = some p →
      ∀ r ∈ reads (interpretFiles E files i c s).ev,
        i ≤ r.index ∧ files[r.index - i]? = some r.file ∧ E.fileExists r.file = true
        ∧ r.kind = interpreterFor r.file
        ∧ ∃ c0 m0, r.moves = (readFile E r.file c0 m0).moves
            ∧ r.throws = (readFile E r.file c0 m0).throws := by
  apply interpretFiles_cases E
    (fun files i _ _ _ o => ∀ r ∈ reads o.ev,
        i ≤ r.index ∧ files[r.index - i]? = some r.file ∧ E.fileExists r.file = true
        ∧ r.kind = interpreterFor r.file
        ∧ ∃ c0 m0, r.moves = (readFile E r.file c0 m0).moves
            ∧ r.throws = (readFile E r.file c0 m0).throws)
  · intro i c s p _ r hr
    simp [reads] at hr
  · intro f rest i c s p _ _ r hr
    simp [reads, Event.asRead] at hr
  · intro f rest i c s p _ _ _ ih r hr
    have hr1 : r ∈ reads (interpretFiles E rest (i + 1) c { s with polls := s.polls + 1 }).ev := by
      simpa [reads, Event.asRead] using hr
    obtain ⟨h1, h2, h3⟩ := ih r hr1
    refine ⟨by omega, ?_, h3⟩
    have e : r.index - i = (r.index - (i + 1)) + 1 := by omega
    rw [e, List.getElem?_cons_succ]
    exact h2
  · intro f rest i c s p _ _ he _ r hr
    have hr1 : r = ⟨i, interpreterFor f, f, (readFile E f c s.machine).moves,
        (readFile E f c s.machine).throws⟩ := by
      simpa using hr
    subst hr1
    exact ⟨le_refl _, by simp, he, rfl, c, s.machine, rfl, rfl⟩
  · intro f rest i c s p _ _ he _ ih r hr
    have hr1 : r = ⟨i, interpreterFor f, f, (readFile E f c s.machine).moves,
        (readFile E f c s.machine).throws⟩
        ∨ r ∈ reads (interpretFiles E rest (i + 1) (readFile E f c s.machine).ctl
            (advance E s p (readFile E f c s.machine).moves)).ev := by
      simpa using hr
    rcases hr1 with hr1 | hr1
    · subst hr1
      exact ⟨le_refl _, by simp, he, rfl, c, s.machine, rfl, rfl⟩
    · obtain ⟨h1, h2, h3⟩ := ih r hr1
      refine ⟨by omega, ?_, h3⟩
      have e : r.index - i = (r.index - (i + 1)) + 1 := by omega
      rw [e, List.getElem?_cons_succ]
      exact h2

/-- The interpreter calls of the loop are made at strictly increasing indices:
no file is read twice. -/
theorem interpretFiles_increasing (E : Collab Tools Move Mach Ctl) :
    ∀ files i c (s : CutSim Tools Move Mach) p, s.path = some p →
      ((reads (interpretFiles E files i c s).ev).map ReadRec.index).Pairwise (· < ·) := by
  apply interpretFiles_cases E
    (fun _ _ _ _ _ o => ((reads o.ev).map ReadRec.index).Pairwise (· < ·))
  · intro i c s p _
    simp [reads]
  · intro f rest i c s p _ _
    simp [reads, Event.asRead]
  · intro f rest i c s p _ _ _ ih
    simpa [reads, Event.asRead] using ih
  · intro f rest i c s p _ _ _ _
    simp
  · intro f rest i c s p _ _ _ _ ih
    have hb := interpretFiles_reads E rest (i + 1) (readFile E f c s.machine).ctl
      (advance E s p (readFile E f c s.machine).moves)
      ⟨p.tools, p.moves ++ (readFile E f c s.machine).moves⟩ rfl
    simp only [reads_append, reads_fileHead, reads_map_move, List.append_nil,
      List.singleton_append, List.map_cons, List.pairwise_cons]
    refine ⟨?_, ih⟩
    intro k hk
    obtain ⟨r, hr, rfl⟩ := List.mem_map.mp hk
    have := (hb r hr).1
    omega

/-- Without cancellation and without a failing call, the loop reads exactly
the existing files, in list order. -/
theorem interpretFiles_files (E : Collab Tools Move Mach Ctl)
    (hquit : ∀ n, E.shouldQuit n = false) :
    ∀ files i c (s : CutSim Tools Move Mach) p, s.path = some p →
      (∀ r ∈ reads (interpretFiles E files i c s).ev, r.throws = false) →
      (reads (interpretFiles E files i c s).ev).map ReadRec.file
        = files.filter E.fileExists := by
  apply interpretFiles_cases E
    (fun files _ _ _ _ o => (∀ r ∈ reads o.ev, r.throws = false) →
      (reads o.ev).map ReadRec.file = files.filter E.fileExists)
  · intro i c s p _ _
    simp [reads]
  · intro f rest i c s p _ hq
    simp [hquit] at hq
  · intro f rest i c s p _ _ he ih hok
    have h := ih (by simpa [reads, Event.asRead] using hok)
    simpa [reads, Event.asRead, he] using h
  · intro f rest i c s p _ _ _ ht hok
    have := hok ⟨i, interpreterFor f, f, (readFile E f c s.machine).moves,
        (readFile E f c s.machine).throws⟩ (by simp)
    simp [ht] at this
  · intro f rest i c s p _ _ he _ ih hok
    have h := ih (fun r hr => hok r (by simp [hr]))
    simp [he, h]

/-- When the poll before the file at offset `j` is the first to answer true,
the loop does what it does on the first `j` files alone, and polls at most
`j + 1` times. -/
theorem interpretFiles_cancel (E : Collab Tools Move Mach Ctl) :
    ∀ files i c (s : CutSim Tools Move Mach) p, s.path = some p →
      ∀ j, j < files.length → E.shouldQuit (s.polls + j) = true →
        (∀ j0, j0 < j → E.shouldQuit (s.polls + j0) = false) →
        (interpretFiles E files i c s).thrown = (interpretFiles E (files.take j) i c s).thrown
        ∧ (interpretFiles E files i c s).st.path = (interpretFiles E (files.take j) i c s).st.path
        ∧ reads (interpretFiles E files i c s).ev
            = reads (interpretFiles E (files.take j) i c s).ev
        ∧ (polls (interpretFiles E files i c s).ev).length ≤ j + 1 := by
  apply interpretFiles_cases E
    (fun files i c s _ o => ∀ j, j < files.length → E.shouldQuit (s.polls + j) = true →
        (∀ j0, j0 < j → E.shouldQuit (s.polls + j0) = false) →
        o.thrown = (interpretFiles E (files.take j) i c s).thrown
        ∧ o.st.path = (interpretFiles E (files.take j) i c s).st.path
        ∧ reads o.ev = reads (interpretFiles E (files.take j) i c s).ev
        ∧ (polls o.ev).length ≤ j + 1)
  · intro i c s p _ j hj
    simp at hj
  · intro f rest i c s p _ hq j _ _ hfirst
    cases j with
    | zero => simp [interpretFiles, reads, polls, Event.asRead, Event.asPoll]
    | succ j =>
      have := hfirst 0 (by omega)
      simp [hq] at this
  · intro f rest i c s p _ hq he ih j hj hqj hfirst
    cases j with
    | zero => simp [hq] at hqj
    | succ j =>
      have hj1 : j < rest.length := by simpa using hj
      have hqj1 : E.shouldQuit (s.polls + 1 + j) = true := by
        rw [← hqj]
        congr 1
        omega
      have hf1 : ∀ j0, j0 < j → E.shouldQuit (s.polls + 1 + j0) = false := by
        intro j0 h0
        rw [← hfirst (j0 + 1) (by omega)]
        congr 1
        omega
      obtain ⟨h1, h2, h3, h4⟩ := ih j hj1 hqj1 hf1
      rw [List.take_succ_cons, interpretFiles_skip E f (rest.take j) i c s hq he]
      refine ⟨h1, h2, ?_, ?_⟩
      · simpa [reads, Event.asRead] using h3
      · simpa [polls, Event.asPoll] using h4
  · intro f rest i c s p hp hq he ht j _ hqj _
    cases j with
    | zero => simp [hq] at hqj
    | succ j =>
      rw [List.take_succ_cons, interpretFiles_fail E f (rest.take j) i c s p hp hq he ht]
      simp
  · intro f rest i c s p hp hq he ht ih j hj hqj hfirst
    cases j with
    | zero => simp [hq] at hqj
    | succ j =>
      have hj1 : j < rest.length := by simpa using hj
      have hqj1 : E.shouldQuit
          ((advance E s p (readFile E f c s.machine).moves).polls + j) = true := by
        rw [← hqj]
        simp only [advance]
        congr 1
        omega
      have hf1 : ∀ j0, j0 < j → E.shouldQuit
          ((advance E s p (readFile E f c s.machine).moves).polls + j0) = false := by
        intro j0 h0
        rw [← hfirst (j0 + 1) (by omega)]
        simp only [advance]
        congr 1
        omega
      obtain ⟨h1, h2, h3, h4⟩ := ih j hj1 hqj1 hf1
      rw [List.take_succ_cons, interpretFiles_next E f (rest.take j) i c s p hp hq he ht]
      refine ⟨h1, h2, ?_, ?_⟩
      · simp [h3]
      · simp only [polls_append, polls_fileHead, polls_map_move, List.length_append,
          List.length_cons, List.length_nil]
        omega

/-- When an interpreter call of the loop fails, the calls before it are those
of the loop on the files before the failing one, which ends without a failure
and without observing cancellation, and the failing call is the last one. -/
theorem interpretFiles_failAt (E : Collab Tools Move Mach Ctl) :
    ∀ files i c (s : CutSim Tools Move Mach) p, s.path = some p →
      ∀ r ∈ reads (interpretFiles E files i c s).ev, r.throws = true →
        i ≤ r.index
        ∧ reads (interpretFiles E files i c s).ev
            = reads (interpretFiles E (files.take (r.index - i)) i c s).ev ++ [r]
        ∧ (interpretFiles E (files.take (r.index - i)) i c s).thrown = false
        ∧ (∀ b ∈ polls (interpretFiles E (files.take (r.index - i)) i c s).ev, b = false) := by
  apply interpretFiles_cases E
    (fun files i c s _ o => ∀ r ∈ reads o.ev, r.throws = true →
        i ≤ r.index
        ∧ reads o.ev = reads (interpretFiles E (files.take (r.index - i)) i c s).ev ++ [r]
        ∧ (interpretFiles E (files.take (r.index - i)) i c s).thrown = false
        ∧ (∀ b ∈ polls (interpretFiles E (files.take (r.index - i)) i c s).ev, b = false))
  · intro i c s p _ r hr
    simp [reads] at hr
  · intro f rest i c s p _ _ r hr
    simp [reads, Event.asRead] at hr
  · intro f rest i c s p _ hq he ih r hr ht
    have hr1 : r ∈ reads (interpretFiles E rest (i + 1) c { s with polls := s.polls + 1 }).ev := by
      simpa [reads, Event.asRead] using hr
    obtain ⟨h1, h2, h3, h4⟩ := ih r hr1 ht
    have e : r.index - i = (r.index - (i + 1)) + 1 := by omega
    rw [e, List.take_succ_cons, interpretFiles_skip E f _ i c s hq he]
    refine ⟨by omega, ?_, h3, ?_⟩
    · simpa [reads, Event.asRead] using h2
    · intro b hb
      have hb1 : b = false
          ∨ b ∈ polls (interpretFiles E (rest.take (r.index - (i + 1))) (i + 1) c
              { s with polls := s.polls + 1 }).ev := by
        simpa [polls, Event.asPoll] using hb
      rcases hb1 with hb1 | hb1
      · exact hb1
      · exact h4 b hb1
  · intro f rest i c s p _ _ _ _ r hr _
    have hr1 : r = ⟨i, interpreterFor f, f, (readFile E f c s.machine).moves,
        (readFile E f c s.machine).throws⟩ := by
      simpa using hr
    subst hr1
    refine ⟨le_refl _, ?_, ?_, ?_⟩
    · simp only [Nat.sub_self, List.take_zero, interpretFiles, reads_append, reads_fileHead,
        reads_map_move]
      simp [reads]
    · simp [interpretFiles]
    · simp [interpretFiles, polls]
  · intro f rest i c s p hp hq he hnt ih r hr ht
    have hr1 : r = ⟨i, interpreterFor f, f, (readFile E f c s.machine).moves,
        (readFile E f c s.machine).throws⟩
        ∨ r ∈ reads (interpretFiles E rest (i + 1) (readFile E f c s.machine).ctl
            (advance E s p (readFile E f c s.machine).moves)).ev := by
      simpa using hr
    rcases hr1 with hr1 | hr1
    · subst hr1
      simp [hnt] at ht
    · obtain ⟨h1, h2, h3, h4⟩ := ih r hr1 ht
      have e : r.index - i = (r.index - (i + 1)) + 1 := by omega
      rw [e, List.take_succ_cons, interpretFiles_next E f _ i c s p hp hq he hnt]
      refine ⟨by omega, ?_, h3, ?_⟩
      · simp [h2]
      · intro b hb
        have hb1 : b = false
            ∨ b ∈ polls (interpretFiles E (rest.take (r.index - (i + 1))) (i + 1)
                (readFile E f c s.machine).ctl
                (advance E s p (readFile E f c s.machine).moves)).ev := by
          simpa using hb
        rcases hb1 with hb1 | hb1
        · exact hb1
        · exact h4 b hb1

end LoopLemmas


/-! ## computeToolPath -/

section ToolPathTheorems

variable {Tools Move Mach Ctl : Type}

theorem computeToolPath_path (E : Collab Tools Move Mach Ctl) (tools : Tools)
    (files : List String) (s : CutSim Tools Move Mach) :
    (computeToolPath E tools files s).1
      = (interpretFiles E files 0 (E.newController (E.machineReset s.machine) tools)
          (loopStart E tools s)).st.path := rfl

theorem computeToolPath_state (E : Collab Tools Move Mach Ctl) (tools : Tools)
    (files : List String) (s : CutSim Tools Move Mach) :
    (computeToolPath E tools files s).2.1
      = { (interpretFiles E files 0 (E.newController (E.machineReset s.machine) tools)
            (loopStart E tools s)).st with
          depth := (interpretFiles E files 0 (E.newController (E.machineReset s.machine) tools)
            (loopStart E tools s)).st.depth - 1,
          path := none } := rfl

theorem computeToolPath_events (E : Collab Tools Move Mach Ctl) (tools : Tools)
    (files : List String) (s : CutSim Tools Move Mach) :
    (computeToolPath E tools files s).2.2
      = [Event.taskBegin, Event.machineReset]
        ++ (interpretFiles E files 0 (E.newController (E.machineReset s.machine) tools)
            (loopStart E tools s)).ev
        ++ (if (interpretFiles E files 0 (E.newController (E.machineReset s.machine) tools)
            (loopStart E tools s)).thrown then [Event.logError] else [])
        ++ [Event.taskEnd] := rfl

theorem computeToolPath_reads (E : Collab Tools Move Mach Ctl) (tools : Tools)
    (files : List String) (s : CutSim Tools Move Mach) :
    reads (computeToolPath E tools files s).2.2
      = reads (interpretFiles E files 0 (E.newController (E.machineReset s.machine) tools)
          (loopStart E tools s)).ev := by
  rw [computeToolPath_events]
  split <;> simp [reads, Event.asRead]

theorem computeToolPath_sinkMoves (E : Collab Tools Move Mach Ctl) (tools : Tools)
    (files : List String) (s : CutSim Tools Move Mach) :
    sinkMoves (computeToolPath E tools files s).2.2
      = sinkMoves (interpretFiles E files 0 (E.newController (E.machineReset s.machine) tools)
          (loopStart E tools s)).ev := by
  rw [computeToolPath_events]
  split <;> simp [sinkMoves, Event.asMove]

theorem computeToolPath_polls (E : Collab Tools Move Mach Ctl) (tools : Tools)
    (files : List String) (s : CutSim Tools Move Mach) :
    polls (computeToolPath E tools files s).2.2
      = polls (interpretFiles E files 0 (E.newController (E.machineReset s.machine) tools)
          (loopStart E tools s)).ev := by
  rw [computeToolPath_events]
  split <;> simp [polls, Event.asPoll]

theorem computeToolPath_errors (E : Collab Tools Move Mach Ctl) (tools : Tools)
    (files : List String) (s : CutSim Tools Move Mach) :
    (computeToolPath E tools files s).2.2.countP Event.isError
      = if (interpretFiles E files 0 (E.newController (E.machineReset s.machine) tools)
          (loopStart E tools s)).thrown then 1 else 0 := by
  have h := (interpretFiles_noScope E files 0
    (E.newController (E.machineReset s.machine) tools) (loopStart E tools s) ⟨tools, []⟩ rfl).2.2
  rw [computeToolPath_events]
  split <;> simp [List.countP_append, List.countP_cons, Event.isError, h]

theorem emitted_length (rs : List (ReadRec Move)) :
    (emitted rs).length = (rs.map (fun r => r.moves.length)).sum := by
  simp [emitted, List.length_flatMap, Function.comp_def]

/-- C2: without a failing interpretation and without cancellation, the tool
path returned by `computeToolPath` is the concatenation, in file-list order and
within a file in emission order, of the moves of the interpreter calls; these
calls are made for exactly the existing files of the list, in order, so a
missing file contributes nothing and raises no error, and the length of the
path is the sum of the numbers of moves emitted per file. -/
theorem computeToolPath_concat (E : Collab Tools Move Mach Ctl) (tools : Tools)
    (files : List String) (cs : CutSim Tools Move Mach)
    (hquit : ∀ n, E.shouldQuit n = false)
    (hok : ∀ r ∈ reads (computeToolPath E tools files cs).2.2, r.throws = false) :
    (computeToolPath E tools files cs).1
        = some ⟨tools, emitted (reads (computeToolPath E tools files cs).2.2)⟩
    ∧ (reads (computeToolPath E tools files cs).2.2).map ReadRec.file
        = files.filter E.fileExists
    ∧ (emitted (reads (computeToolPath E tools files cs).2.2)).length
        = ((reads (computeToolPath E tools files cs).2.2).map (fun r => r.moves.length)).sum
    ∧ sinkMoves (computeToolPath E tools files cs).2.2
        = emitted (reads (computeToolPath E tools files cs).2.2)
    ∧ (computeToolPath E tools files cs).2.2.countP Event.isError = 0 := by
  rw [computeToolPath_reads] at hok ⊢
  rw [computeToolPath_path, computeToolPath_sinkMoves, computeToolPath_errors]
  refine ⟨?_, ?_, emitted_length _, ?_, ?_⟩
  · simpa using interpretFiles_path E files 0 _ (loopStart E tools cs) ⟨tools, []⟩ rfl
  · exact interpretFiles_files E hquit files 0 _ (loopStart E tools cs) ⟨tools, []⟩ rfl hok
  · exact (interpretFiles_sink E files 0 _ (loopStart E tools cs) ⟨tools, []⟩ rfl).1
  · have h := interpretFiles_thrown E files 0
      (E.newController (E.machineReset cs.machine) tools) (loopStart E tools cs) ⟨tools, []⟩ rfl
    cases ht : (interpretFiles E files 0 (E.newController (E.machineReset cs.machine) tools)
        (loopStart E tools cs)).thrown with
    | false => simp
    | true =>
      obtain ⟨r, hr, hrt⟩ := h.mp ht
      rw [hok r hr] at hrt
      cases hrt

/-- Evaluation of C2 on a G-code file, a missing file and a script. -/
theorem computeToolPath_concat_witness :
    (computeToolPath demoCollab 9 ["a.nc", "missing.nc", "b.tpl"] demoCutSim).1
        = some ⟨9, emitted (reads
            (computeToolPath demoCollab 9 ["a.nc", "missing.nc", "b.tpl"] demoCutSim).2.2)⟩
    ∧ (reads (computeToolPath demoCollab 9 ["a.nc", "missing.nc", "b.tpl"] demoCutSim).2.2).map
          ReadRec.file
        = ["a.nc", "missing.nc", "b.tpl"].filter demoCollab.fileExists
    ∧ (emitted (reads
          (computeToolPath demoCollab 9 ["a.nc", "missing.nc", "b.tpl"] demoCutSim).2.2)).length
        = ((reads (computeToolPath demoCollab 9 ["a.nc", "missing.nc", "b.tpl"]
            demoCutSim).2.2).map (fun r => r.moves.length)).sum
    ∧ sinkMoves (computeToolPath demoCollab 9 ["a.nc", "missing.nc", "b.tpl"] demoCutSim).2.2
        = emitted (reads
            (computeToolPath demoCollab 9 ["a.nc", "missing.nc", "b.tpl"] demoCutSim).2.2)
    ∧ (computeToolPath demoCollab 9 ["a.nc", "missing.nc", "b.tpl"] demoCutSim).2.2.countP
        Event.isError = 0 :=
  computeToolPath_concat demoCollab 9 ["a.nc", "missing.nc", "b.tpl"] demoCutSim
    (fun _ => rfl) (by decide)

theorem take_getElem?_lt {α : Type} (l : List α) (k n : Nat) (a : α)
    (h : (l.take k)[n]? = some a) : n < k := by
  have h1 : n < (l.take k).length := by
    by_contra hc
    rw [List.getElem?_eq_none (by omega)] at h
    cases h
  have h2 := List.length_take_le k l
  omega

/-- C1 (as the code behaves): when the interpreter call for the file at index
`k` fails, `computeToolPath` still returns: the error is logged once, the calls
made before it are those of a run on the files before `k` alone (which ends
without error and without observing cancellation), the failing call is the
last one, and the returned path is the path of that run followed by the moves
the failing interpreter delivered before it failed. -/
theorem computeToolPath_failure (E : Collab Tools Move Mach Ctl) (tools : Tools)
    (files : List String) (cs : CutSim Tools Move Mach) (r : ReadRec Move)
    (hr : r ∈ reads (computeToolPath E tools files cs).2.2) (ht : r.throws = true) :
    files[r.index]? = some r.file
    ∧ reads (computeToolPath E tools files cs).2.2
        = reads (computeToolPath E tools (files.take r.index) cs).2.2 ++ [r]
    ∧ (∀ r0 ∈ reads (computeToolPath E tools (files.take r.index) cs).2.2,
        r0.index < r.index)
    ∧ (computeToolPath E tools (files.take r.index) cs).2.2.countP Event.isError = 0
    ∧ (∀ b ∈ polls (computeToolPath E tools (files.take r.index) cs).2.2, b = false)
    ∧ (computeToolPath E tools (files.take r.index) cs).1
        = some ⟨tools, emitted (reads (computeToolPath E tools (files.take r.index) cs).2.2)⟩
    ∧ (computeToolPath E tools files cs).1
        = some ⟨tools,
            emitted (reads (computeToolPath E tools (files.take r.index) cs).2.2) ++ r.moves⟩
    ∧ (computeToolPath E tools files cs).2.2.countP Event.isError = 1 := by
  rw [computeToolPath_reads] at hr
  have hf := interpretFiles_failAt E files 0 (E.newController (E.machineReset cs.machine) tools)
    (loopStart E tools cs) ⟨tools, []⟩ rfl r hr ht
  simp only [Nat.sub_zero] at hf
  obtain ⟨_, h2, h3, h4⟩ := hf
  have hfacts := interpretFiles_reads E files 0
    (E.newController (E.machineReset cs.machine) tools) (loopStart E tools cs) ⟨tools, []⟩ rfl r hr
  have hpre := interpretFiles_reads E (files.take r.index) 0
    (E.newController (E.machineReset cs.machine) tools) (loopStart E tools cs) ⟨tools, []⟩ rfl
  have hpathFull := interpretFiles_path E files 0
    (E.newController (E.machineReset cs.machine) tools) (loopStart E tools cs) ⟨tools, []⟩ rfl
  have hpathPre := interpretFiles_path E (files.take r.index) 0
    (E.newController (E.machineReset cs.machine) tools) (loopStart E tools cs) ⟨tools, []⟩ rfl
  have hthrown := (interpretFiles_thrown E files 0
    (E.newController (E.machineReset cs.machine) tools) (loopStart E tools cs) ⟨tools, []⟩
    rfl).mpr ⟨r, hr, ht⟩
  simp only [computeToolPath_reads, computeToolPath_polls, computeToolPath_errors,
    computeToolPath_path]
  refine ⟨by simpa using hfacts.2.1, h2, ?_, by simp [h3], h4, by simpa using hpathPre, ?_,
    by simp [hthrown]⟩
  · intro r0 hr0
    have h := (hpre r0 hr0).2.1
    simp only [Nat.sub_zero] at h
    exact take_getElem?_lt files r.index r0.index r0.file h
  · rw [hpathFull, h2]
    simp [emitted]

/-- Evaluation of C1 (as the code behaves) on a list whose second file fails
after one move. -/
theorem computeToolPath_failure_witness :
    ["a.nc", "bad.nc", "c.nc"][1]? = some "bad.nc"
    ∧ reads (computeToolPath demoCollab 9 ["a.nc", "bad.nc", "c.nc"] demoCutSim).2.2
        = reads (computeToolPath demoCollab 9 (["a.nc", "bad.nc", "c.nc"].take 1)
            demoCutSim).2.2 ++ [⟨1, InterpKind.gcode, "bad.nc", [7], true⟩]
    ∧ (∀ r0 ∈ reads (computeToolPath demoCollab 9 (["a.nc", "bad.nc", "c.nc"].take 1)
          demoCutSim).2.2, r0.index < 1)
    ∧ (computeToolPath demoCollab 9 (["a.nc", "bad.nc", "c.nc"].take 1)
        demoCutSim).2.2.countP Event.isError = 0
    ∧ (∀ b ∈ polls (computeToolPath demoCollab 9 (["a.nc", "bad.nc", "c.nc"].take 1)
        demoCutSim).2.2, b = false)
    ∧ (computeToolPath demoCollab 9 (["a.nc", "bad.nc", "c.nc"].take 1) demoCutSim).1
        = some ⟨9, emitted (reads (computeToolPath demoCollab 9
            (["a.nc", "bad.nc", "c.nc"].take 1) demoCutSim).2.2)⟩
    ∧ (computeToolPath demoCollab 9 ["a.nc", "bad.nc", "c.nc"] demoCutSim).1
        = some ⟨9, emitted (reads (computeToolPath demoCollab 9
            (["a.nc", "bad.nc", "c.nc"].take 1) demoCutSim).2.2) ++ [7]⟩
    ∧ (computeToolPath demoCollab 9 ["a.nc", "bad.nc", "c.nc"] demoCutSim).2.2.countP
        Event.isError = 1 :=
  computeToolPath_failure demoCollab 9 ["a.nc", "bad.nc", "c.nc"] demoCutSim
    ⟨1, InterpKind.gcode, "bad.nc", [7], true⟩ (by decide) rfl

/-- C1 as stated fails: `bad.nc` at index 1 delivers one move and then fails;
the returned path holds that move, so it differs from the path of a run on the
files before index 1 alone. -/
theorem computeToolPath_failure_keeps_moves :
    reads (computeToolPath demoCollab 9 ["a.nc", "bad.nc", "c.nc"] demoCutSim).2.2
        = [⟨0, InterpKind.gcode, "a.nc", [1, 2, 0], false⟩,
           ⟨1, InterpKind.gcode, "bad.nc", [7], true⟩]
    ∧ (computeToolPath demoCollab 9 ["a.nc", "bad.nc", "c.nc"] demoCutSim).1
        = some ⟨9, [1, 2, 0, 7]⟩
    ∧ (computeToolPath demoCollab 9 (["a.nc", "bad.nc", "c.nc"].take 1) demoCutSim).1
        = some ⟨9, [1, 2, 0]⟩
    ∧ (computeToolPath demoCollab 9 ["a.nc", "bad.nc", "c.nc"] demoCutSim).1
        ≠ (computeToolPath demoCollab 9 (["a.nc", "bad.nc", "c.nc"].take 1) demoCutSim).1 := by
  decide

/-- C7: when the poll before the file at index `i` is the first to answer
true, no file at index `i` or later is interpreted, `computeToolPath` has
polled at most `i + 1` times when it returns, the returned path is the one a
run on the files before `i` alone returns, made of the moves delivered so far,
and the cancellation itself logs no error. -/
theorem computeToolPath_cancel (E : Collab Tools Move Mach Ctl) (tools : Tools)
    (files : List String) (cs : CutSim Tools Move Mach) (i : Nat) (hi : i < files.length)
    (hfirst : ∀ j, j < i → E.shouldQuit (cs.polls + j) = false)
    (hq : E.shouldQuit (cs.polls + i) = true) :
    (∀ r ∈ reads (computeToolPath E tools files cs).2.2, r.index < i)
    ∧ (polls (computeToolPath E tools files cs).2.2).length ≤ i + 1
    ∧ (computeToolPath E tools files cs).1 = (computeToolPath E tools (files.take i) cs).1
    ∧ (computeToolPath E tools files cs).1
        = some ⟨tools, emitted (reads (computeToolPath E tools files cs).2.2)⟩
    ∧ ((∀ r ∈ reads (computeToolPath E tools files cs).2.2, r.throws = false) →
        (computeToolPath E tools files cs).2.2.countP Event.isError = 0) := by
  have hc := interpretFiles_cancel E files 0 (E.newController (E.machineReset cs.machine) tools)
    (loopStart E tools cs) ⟨tools, []⟩ rfl i hi hq hfirst
  obtain ⟨_, h2, h3, h4⟩ := hc
  have hpre := interpretFiles_reads E (files.take i) 0
    (E.newController (E.machineReset cs.machine) tools) (loopStart E tools cs) ⟨tools, []⟩ rfl
  have hpathFull := interpretFiles_path E files 0
    (E.newController (E.machineReset cs.machine) tools) (loopStart E tools cs) ⟨tools, []⟩ rfl
  have hthrown := interpretFiles_thrown E files 0
    (E.newController (E.machineReset cs.machine) tools) (loopStart E tools cs) ⟨tools, []⟩ rfl
  simp only [computeToolPath_reads, computeToolPath_polls, computeToolPath_errors,
    computeToolPath_path]
  refine ⟨?_, h4, h2, by simpa using hpathFull, ?_⟩
  · intro r hr
    rw [h3] at hr
    have h := (hpre r hr).2.1
    simp only [Nat.sub_zero] at h
    exact take_getElem?_lt files i r.index r.file h
  · intro hok
    cases ht : (interpretFiles E files 0 (E.newController (E.machineReset cs.machine) tools)
        (loopStart E tools cs)).thrown with
    | false => simp
    | true =>
      obtain ⟨r, hr, hrt⟩ := hthrown.mp ht
      rw [hok r hr] at hrt
      cases hrt

/-- Evaluation of C7 with cancellation observed before the file at index 1. -/
theorem computeToolPath_cancel_witness :
    (∀ r ∈ reads (computeToolPath (demoQuitAt 1) 9 ["a.nc", "b.tpl", "c.nc"] demoCutSim).2.2,
        r.index < 1)
    ∧ (polls (computeToolPath (demoQuitAt 1) 9 ["a.nc", "b.tpl", "c.nc"]
        demoCutSim).2.2).length ≤ 1 + 1
    ∧ (computeToolPath (demoQuitAt 1) 9 ["a.nc", "b.tpl", "c.nc"] demoCutSim).1
        = (computeToolPath (demoQuitAt 1) 9 (["a.nc", "b.tpl", "c.nc"].take 1) demoCutSim).1
    ∧ (computeToolPath (demoQuitAt 1) 9 ["a.nc", "b.tpl", "c.nc"] demoCutSim).1
        = some ⟨9, emitted (reads (computeToolPath (demoQuitAt 1) 9 ["a.nc", "b.tpl", "c.nc"]
            demoCutSim).2.2)⟩
    ∧ ((∀ r ∈ reads (computeToolPath (demoQuitAt 1) 9 ["a.nc", "b.tpl", "c.nc"]
          demoCutSim).2.2, r.throws = false) →
        (computeToolPath (demoQuitAt 1) 9 ["a.nc", "b.tpl", "c.nc"] demoCutSim).2.2.countP
          Event.isError = 0) :=
  computeToolPath_cancel (demoQuitAt 1) 9 ["a.nc", "b.tpl", "c.nc"] demoCutSim 1
    (by decide) (by decide) (by decide)

/-- C9: every interpreter call of `computeToolPath` is made for an existing
file of the list, at the index of that file, and no index is read twice; the call
goes to the script interpreter exactly when the name ends in `.tpl` and to the
G-code interpreter otherwise, and records what that interpreter did.  The moves
of both interpreters pass through `CutSim::move`, which moves the machine and
appends the move to the path: the moves seen by the sink are the moves emitted,
the returned path holds them and the machine state is built from them. -/
theorem computeToolPath_dispatch (E : Collab Tools Move Mach Ctl) (tools : Tools)
    (files : List String) (cs : CutSim Tools Move Mach) :
    (∀ r ∈ reads (computeToolPath E tools files cs).2.2,
        files[r.index]? = some r.file ∧ E.fileExists r.file = true
        ∧ (r.kind = InterpKind.tpl ↔ endsWith r.file ".tpl" = true)
        ∧ (r.kind = InterpKind.gcode ↔ endsWith r.file ".tpl" = false)
        ∧ ∃ c m,
            (r.kind = InterpKind.tpl →
              r.moves = (E.tplRead r.file c m).moves ∧ r.throws = (E.tplRead r.file c m).throws)
            ∧ (r.kind = InterpKind.gcode →
              r.moves = (E.gcodeRead r.file c m).moves
                ∧ r.throws = (E.gcodeRead r.file c m).throws))
    ∧ ((reads (computeToolPath E tools files cs).2.2).map ReadRec.index).Pairwise (· < ·)
    ∧ sinkMoves (computeToolPath E tools files cs).2.2
        = emitted (reads (computeToolPath E tools files cs).2.2)
    ∧ (computeToolPath E tools files cs).1
        = some ⟨tools, sinkMoves (computeToolPath E tools files cs).2.2⟩
    ∧ (computeToolPath E tools files cs).2.1.machine
        = (sinkMoves (computeToolPath E tools files cs).2.2).foldl E.machineMove
            (E.machineReset cs.machine)
    ∧ (∀ (s : CutSim Tools Move Mach) (m : Move),
        (CutSim.move E s m).2.machine = E.machineMove s.machine m
        ∧ (CutSim.move E s m).2.path = s.path.map (fun p => ⟨p.tools, p.moves ++ [m]⟩)) := by
  have hreads := interpretFiles_reads E files 0
    (E.newController (E.machineReset cs.machine) tools) (loopStart E tools cs) ⟨tools, []⟩ rfl
  have hinc := interpretFiles_increasing E files 0
    (E.newController (E.machineReset cs.machine) tools) (loopStart E tools cs) ⟨tools, []⟩ rfl
  have hsink := interpretFiles_sink E files 0
    (E.newController (E.machineReset cs.machine) tools) (loopStart E tools cs) ⟨tools, []⟩ rfl
  have hpath := interpretFiles_path E files 0
    (E.newController (E.machineReset cs.machine) tools) (loopStart E tools cs) ⟨tools, []⟩ rfl
  simp only [computeToolPath_reads, computeToolPath_sinkMoves, computeToolPath_path,
    computeToolPath_state]
  refine ⟨?_, hinc, hsink.1, ?_, hsink.2, ?_⟩
  · intro r hr
    obtain ⟨_, h2, h3, h4, c, m, h5, h6⟩ := hreads r hr
    simp only [Nat.sub_zero] at h2
    refine ⟨h2, h3, ?_, ?_, c, m, ?_, ?_⟩
    · rw [h4]
      unfold interpreterFor
      split <;> simp_all
    · rw [h4]
      unfold interpreterFor
      split <;> simp_all
    · intro hk
      rw [h4] at hk
      simp only [readFile, hk] at h5 h6
      exact ⟨h5, h6⟩
    · intro hk
      rw [h4] at hk
      simp only [readFile, hk] at h5 h6
      exact ⟨h5, h6⟩
  · rw [hpath, hsink.1]
    simp
  · intro s m
    cases s with
    | mk machine path depth polls threads =>
      cases path <;> simp [CutSim.move, ToolPath.add]

/-- On every path through `computeToolPath` the first event is its one
`Task::begin`, the last event is its one `Task::end`, and the scope depth on
return is the depth on entry. -/
theorem computeToolPath_scope (E : Collab Tools Move Mach Ctl) (tools : Tools)
    (files : List String) (cs : CutSim Tools Move Mach) :
    (computeToolPath E tools files cs).2.2.countP Event.isBegin = 1
    ∧ (computeToolPath E tools files cs).2.2.countP Event.isEnd = 1
    ∧ (computeToolPath E tools files cs).2.2.head? = some Event.taskBegin
    ∧ (computeToolPath E tools files cs).2.2.getLast? = some Event.taskEnd
    ∧ (computeToolPath E tools files cs).2.1.depth = cs.depth := by
  have hns := interpretFiles_noScope E files 0
    (E.newController (E.machineReset cs.machine) tools) (loopStart E tools cs) ⟨tools, []⟩ rfl
  have hfr := interpretFiles_frame E files 0
    (E.newController (E.machineReset cs.machine) tools) (loopStart E tools cs) ⟨tools, []⟩ rfl
  rw [computeToolPath_events, computeToolPath_state]
  refine ⟨?_, ?_, ?_, ?_, ?_⟩
  · split <;> simp [List.countP_append, List.countP_cons, Event.isBegin, hns.1]
  · split <;> simp [List.countP_append, List.countP_cons, Event.isEnd, hns.2.1]
  · simp
  · rw [List.getLast?_append]
    simp
  · have h := hfr.1
    simp only [loopStart] at h
    simp only [loopStart, h]
    omega

end ToolPathTheorems


/-! ## Lemmas on SurfaceThread::run -/

section LookupLemmas

variable {Tools Move Mach Wp Stl Surf : Type}

/-- Case analysis on the cache lookup. -/
theorem lookup_cases (R : SurfaceEnv Tools Move Wp Stl Surf)
    (t : SurfaceThread Tools Move Mach Wp Surf)
    (P : TryOut Tools Move Mach Wp Surf → Prop)
    (hno : (SurfaceThread.hasCache R t || SurfaceThread.hasBZ2Cache R t) = false →
      P ⟨false, t, []⟩)
    (hopen : (SurfaceThread.hasCache R t || SurfaceThread.hasBZ2Cache R t) = true →
      R.iopen (SurfaceThread.cacheStream R t).file = false →
      P ⟨true, t, [Event.iopen (SurfaceThread.cacheStream R t).file]⟩)
    (hhdr : (SurfaceThread.hasCache R t || SurfaceThread.hasBZ2Cache R t) = true →
      R.iopen (SurfaceThread.cacheStream R t).file = true →
      ∀ e, R.readHeader (SurfaceThread.cacheStream R t) = Except.error e →
      P ⟨true, t, [Event.iopen (SurfaceThread.cacheStream R t).file,
        Event.readHeader (SurfaceThread.cacheStream R t)]⟩)
    (hmis : (SurfaceThread.hasCache R t || SurfaceThread.hasBZ2Cache R t) = true →
      R.iopen (SurfaceThread.cacheStream R t).file = true →
      ∀ stl, R.readHeader (SurfaceThread.cacheStream R t) = Except.ok stl →
      R.getHash stl ≠ R.computeHash t.sim →
      P ⟨false, t, [Event.iopen (SurfaceThread.cacheStream R t).file,
        Event.readHeader (SurfaceThread.cacheStream R t)]⟩)
    (hbody : (SurfaceThread.hasCache R t || SurfaceThread.hasBZ2Cache R t) = true →
      R.iopen (SurfaceThread.cacheStream R t).file = true →
      ∀ stl, R.readHeader (SurfaceThread.cacheStream R t) = Except.ok stl →
      R.getHash stl = R.computeHash t.sim →
      ∀ e, R.readBody (SurfaceThread.cacheStream R t) stl = Except.error e →
      P ⟨true, t, [Event.iopen (SurfaceThread.cacheStream R t).file,
        Event.readHeader (SurfaceThread.cacheStream R t),
        Event.readBody (SurfaceThread.cacheStream R t)]⟩)
    (hbuild : (SurfaceThread.hasCache R t || SurfaceThread.hasBZ2Cache R t) = true →
      R.iopen (SurfaceThread.cacheStream R t).file = true →
      ∀ stl, R.readHeader (SurfaceThread.cacheStream R t) = Except.ok stl →
      R.getHash stl = R.computeHash t.sim →
      ∀ body, R.readBody (SurfaceThread.cacheStream R t) stl = Except.ok body →
      ∀ e, R.newElementSurface body = Except.error e →
      P ⟨true, t, [Event.iopen (SurfaceThread.cacheStream R t).file,
        Event.readHeader (SurfaceThread.cacheStream R t),
        Event.readBody (SurfaceThread.cacheStream R t), Event.newElementSurface]⟩)
    (hhit : (SurfaceThread.hasCache R t || SurfaceThread.hasBZ2Cache R t) = true →
      R.iopen (SurfaceThread.cacheStream R t).file = true →
      ∀ stl, R.readHeader (SurfaceThread.cacheStream R t) = Except.ok stl →
      R.getHash stl = R.computeHash t.sim →
      ∀ body, R.readBody (SurfaceThread.cacheStream R t) stl = Except.ok body →
      ∀ surf, R.newElementSurface body = Except.ok surf →
      P ⟨false, { t with surface := some surf },
        [Event.iopen (SurfaceThread.cacheStream R t).file,
          Event.readHeader (SurfaceThread.cacheStream R t),
          Event.readBody (SurfaceThread.cacheStream R t), Event.newElementSurface]⟩) :
    P (SurfaceThread.lookup R t) := by
  unfold SurfaceThread.lookup
  cases hsel : (SurfaceThread.hasCache R t || SurfaceThread.hasBZ2Cache R t) with
  | false => simpa using hno hsel
  | true =>
    cases ho : R.iopen (SurfaceThread.cacheStream R t).file with
    | false => simpa [ho] using hopen hsel ho
    | true =>
      cases hh : R.readHeader (SurfaceThread.cacheStream R t) with
      | error e => simpa [ho, hh] using hhdr hsel ho e hh
      | ok stl =>
        by_cases hx : R.getHash stl = R.computeHash t.sim
        · cases hb : R.readBody (SurfaceThread.cacheStream R t) stl with
          | error e => simpa [ho, hh, hx, hb] using hbody hsel ho stl hh hx e hb
          | ok body =>
            cases hs : R.newElementSurface body with
            | error e => simpa [ho, hh, hx, hb, hs] using hbuild hsel ho stl hh hx body hb e hs
            | ok surf => simpa [ho, hh, hx, hb, hs] using hhit hsel ho stl hh hx body hb surf hs
        · simpa [ho, hh, hx] using hmis hsel ho stl hh hx

/-- Closing the scope just opened restores the `CutSim` state. -/
theorem Task.end_begin (s : CutSim Tools Move Mach) : Task.end_ (Task.begin s) = s := by
  cases s
  simp [Task.end_, Task.begin]

/-- Case analysis on the lookup phase of `run`: the worker and the events it
leaves in each of the seven ways the lookup can go. -/
theorem lookupPhase_cases (R : SurfaceEnv Tools Move Wp Stl Surf)
    (t : SurfaceThread Tools Move Mach Wp Surf)
    (P : SurfaceThread Tools Move Mach Wp Surf × List (Event Move) → Prop)
    (hno : (SurfaceThread.hasCache R t || SurfaceThread.hasBZ2Cache R t) = false →
      P (t,
        [Event.taskBegin, Event.taskEnd]))
    (hopen : (SurfaceThread.hasCache R t || SurfaceThread.hasBZ2Cache R t) = true →
      R.iopen (SurfaceThread.cacheStream R t).file = false →
      P (t,
        [Event.taskBegin, Event.iopen (SurfaceThread.cacheStream R t).file,
          Event.logError, Event.taskEnd]))
    (hhdr : (SurfaceThread.hasCache R t || SurfaceThread.hasBZ2Cache R t) = true →
      R.iopen (SurfaceThread.cacheStream R t).file = true →
      ∀ e, R.readHeader (SurfaceThread.cacheStream R t) = Except.error e →
      P (t,
        [Event.taskBegin, Event.iopen (SurfaceThread.cacheStream R t).file,
          Event.readHeader (SurfaceThread.cacheStream R t), Event.logError, Event.taskEnd]))
    (hmis : (SurfaceThread.hasCache R t || SurfaceThread.hasBZ2Cache R t) = true →
      R.iopen (SurfaceThread.cacheStream R t).file = true →
      ∀ stl, R.readHeader (SurfaceThread.cacheStream R t) = Except.ok stl →
      R.getHash stl ≠ R.computeHash t.sim →
      P (t,
        [Event.taskBegin, Event.iopen (SurfaceThread.cacheStream R t).file,
          Event.readHeader (SurfaceThread.cacheStream R t), Event.taskEnd]))
    (hbody : (SurfaceThread.hasCache R t || SurfaceThread.hasBZ2Cache R t) = true →
      R.iopen (SurfaceThread.cacheStream R t).file = true →
      ∀ stl, R.readHeader (SurfaceThread.cacheStream R t) = Except.ok stl →
      R.getHash stl = R.computeHash t.sim →
      ∀ e, R.readBody (SurfaceThread.cacheStream R t) stl = Except.error e →
      P (t,
        [Event.taskBegin, Event.iopen (SurfaceThread.cacheStream R t).file,
          Event.readHeader (SurfaceThread.cacheStream R t),
          Event.readBody (SurfaceThread.cacheStream R t), Event.logError, Event.taskEnd]))
    (hbuild : (SurfaceThread.hasCache R t || SurfaceThread.hasBZ2Cache R t) = true →
      R.iopen (SurfaceThread.cacheStream R t).file = true →
      ∀ stl, R.readHeader (SurfaceThread.cacheStream R t) = Except.ok stl →
      R.getHash stl = R.computeHash t.sim →
      ∀ body, R.readBody (SurfaceThread.cacheStream R t) stl = Except.ok body →
      ∀ e, R.newElementSurface body = Except.error e →
      P (t,
        [Event.taskBegin, Event.iopen (SurfaceThread.cacheStream R t).file,
          Event.readHeader (SurfaceThread.cacheStream R t),
          Event.readBody (SurfaceThread.cacheStream R t), Event.newElementSurface,
          Event.logError, Event.taskEnd]))
    (hhit : (SurfaceThread.hasCache R t || SurfaceThread.hasBZ2Cache R t) = true →
      R.iopen (SurfaceThread.cacheStream R t).file = true →
      ∀ stl, R.readHeader (SurfaceThread.cacheStream R t) = Except.ok stl →
      R.getHash stl = R.computeHash t.sim →
      ∀ body, R.readBody (SurfaceThread.cacheStream R t) stl = Except.ok body →
      ∀ surf, R.newElementSurface body = Except.ok surf →
      P ({ t with surface := some surf },
        [Event.taskBegin, Event.iopen (SurfaceThread.cacheStream R t).file,
          Event.readHeader (SurfaceThread.cacheStream R t),
          Event.readBody (SurfaceThread.cacheStream R t), Event.newElementSurface,
          Event.taskEnd])) :
    P (SurfaceThread.lookupPhase R t) := by
  unfold SurfaceThread.lookupPhase
  refine lookup_cases R { t with cutSim := Task.begin t.cutSim }
    (fun l => P ({ l.st with cutSim := Task.end_ l.st.cutSim },
      [Event.taskBegin] ++ l.ev ++ (if l.thrown then [Event.logError] else [])
        ++ [Event.taskEnd])) ?_ ?_ ?_ ?_ ?_ ?_ ?_
  · intro h
    simpa [Task.end_begin] using hno h
  · intro h ho
    simpa [Task.end_begin] using hopen h ho
  · intro h ho e he
    simpa [Task.end_begin] using hhdr h ho e he
  · intro h ho stl hs hx
    simpa [Task.end_begin] using hmis h ho stl hs hx
  · intro h ho stl hs hx e he
    simpa [Task.end_begin] using hbody h ho stl hs hx e he
  · intro h ho stl hs hx body hb e he
    simpa [Task.end_begin] using hbuild h ho stl hs hx body hb e he
  · intro h ho stl hs hx body hb surf hsf
    simpa [Task.end_begin] using hhit h ho stl hs hx body hb surf hsf

/-- The events of `run` are those of the lookup phase, then those of the
compute phase, then the completion signal. -/
theorem run_events (R : SurfaceEnv Tools Move Wp Stl Surf)
    (t : SurfaceThread Tools Move Mach Wp Surf) :
    (SurfaceThread.run R t).2
      = (SurfaceThread.lookupPhase R t).2
        ++ (SurfaceThread.computePhase R (SurfaceThread.lookupPhase R t).1).2
        ++ [Event.completed] := rfl

theorem run_state (R : SurfaceEnv Tools Move Wp Stl Surf)
    (t : SurfaceThread Tools Move Mach Wp Surf) :
    (SurfaceThread.run R t).1
      = (SurfaceThread.computePhase R (SurfaceThread.lookupPhase R t).1).1 := rfl

/-- The compute phase on a worker whose surface is unset: one call of
`computeSurface`, whose result becomes the surface, a thrown error being
logged. -/
theorem computePhase_none (R : SurfaceEnv Tools Move Wp Stl Surf)
    (t : SurfaceThread Tools Move Mach Wp Surf) (h : t.surface = none) :
    (SurfaceThread.computePhase R t).1.surface
        = (CutSim.computeSurface R t.cutSim t.sim).toOption.join
    ∧ (SurfaceThread.computePhase R t).1.cutSim = t.cutSim
    ∧ (∃ post, (SurfaceThread.computePhase R t).2 = Event.computeSurface :: post
        ∧ post.countP Event.isCompute = 0 ∧ post.countP Event.isCompleted = 0
        ∧ post.countP Event.isBegin = 0 ∧ post.countP Event.isEnd = 0
        ∧ post.countP Event.isReadBody = 0 ∧ post.countP Event.isNewSurface = 0
        ∧ opens post = [] ∧ streams post = []) := by
  unfold SurfaceThread.computePhase
  rw [h]
  cases hc : CutSim.computeSurface R t.cutSim t.sim with
  | error e =>
    simp [h, Except.toOption, Event.isCompute, Event.isCompleted, Event.isBegin, Event.isEnd,
      Event.isReadBody, Event.isNewSurface, opens, streams, Event.asOpen, Event.asStream]
  | ok surf =>
    simp [Except.toOption, opens, streams]

/-- The compute phase on a worker whose surface is set does nothing. -/
theorem computePhase_some (R : SurfaceEnv Tools Move Wp Stl Surf)
    (t : SurfaceThread Tools Move Mach Wp Surf) (surf : Surf) (h : t.surface = some surf) :
    SurfaceThread.computePhase R t = (t, []) := by
  unfold SurfaceThread.computePhase
  rw [h]

/-- The compute phase opens and closes no `Task` scope, opens no file, reads
no stream and leaves the `CutSim` state alone. -/
theorem computePhase_frame (R : SurfaceEnv Tools Move Wp Stl Surf)
    (t : SurfaceThread Tools Move Mach Wp Surf) :
    (SurfaceThread.computePhase R t).1.cutSim = t.cutSim
    ∧ (SurfaceThread.computePhase R t).2.countP Event.isBegin = 0
    ∧ (SurfaceThread.computePhase R t).2.countP Event.isEnd = 0
    ∧ (SurfaceThread.computePhase R t).2.countP Event.isCompleted = 0
    ∧ (SurfaceThread.computePhase R t).2.countP Event.isReadBody = 0
    ∧ (SurfaceThread.computePhase R t).2.countP Event.isNewSurface = 0
    ∧ opens (SurfaceThread.computePhase R t).2 = []
    ∧ streams (SurfaceThread.computePhase R t).2 = [] := by
  cases hs : t.surface with
  | some surf =>
    rw [computePhase_some R t surf hs]
    simp [opens, streams]
  | none =>
    obtain ⟨_, h2, post, h3, _, h5, h6, h7, h8, h9, h10, h11⟩ := computePhase_none R t hs
    rw [h3]
    simp only [opens, streams] at h10 h11
    simp [h2, h5, h6, h7, h8, h9, h10, h11, Event.isCompleted, Event.isBegin, Event.isEnd,
      Event.isReadBody, Event.isNewSurface, opens, streams, Event.asOpen, Event.asStream]

/-- What every lookup phase does: it leaves the `CutSim` state, the
simulation and the file name alone, opens its one `Task` scope first and closes
it last, never calls `computeSurface` or `completed`, logs at most one error,
and either keeps the surface (then the cache record was not turned into a
surface without error) or sets it from the cache record. -/
theorem lookupPhase_summary (R : SurfaceEnv Tools Move Wp Stl Surf)
    (t : SurfaceThread Tools Move Mach Wp Surf) :
    ((SurfaceThread.lookupPhase R t).1.cutSim = t.cutSim
      ∧ (SurfaceThread.lookupPhase R t).1.sim = t.sim
      ∧ (SurfaceThread.lookupPhase R t).1.filename = t.filename)
    ∧ ((SurfaceThread.lookupPhase R t).2.countP Event.isBegin = 1
      ∧ (SurfaceThread.lookupPhase R t).2.countP Event.isEnd = 1
      ∧ (SurfaceThread.lookupPhase R t).2.head? = some Event.taskBegin
      ∧ (SurfaceThread.lookupPhase R t).2.getLast? = some Event.taskEnd)
    ∧ ((SurfaceThread.lookupPhase R t).2.countP Event.isCompute = 0
      ∧ (SurfaceThread.lookupPhase R t).2.countP Event.isCompleted = 0
      ∧ (SurfaceThread.lookupPhase R t).2.countP Event.isError ≤ 1)
    ∧ (((SurfaceThread.lookupPhase R t).1.surface = t.surface
        ∧ ¬ ((SurfaceThread.lookupPhase R t).2.countP Event.isNewSurface = 1
          ∧ (SurfaceThread.lookupPhase R t).2.countP Event.isError = 0))
      ∨ (∃ surf, (SurfaceThread.lookupPhase R t).1.surface = some surf
        ∧ (SurfaceThread.lookupPhase R t).2.countP Event.isNewSurface = 1
        ∧ (SurfaceThread.lookupPhase R t).2.countP Event.isError = 0)) := by
  refine lookupPhase_cases R t
    (fun x => (x.1.cutSim = t.cutSim ∧ x.1.sim = t.sim ∧ x.1.filename = t.filename)
      ∧ (x.2.countP Event.isBegin = 1 ∧ x.2.countP Event.isEnd = 1
        ∧ x.2.head? = some Event.taskBegin ∧ x.2.getLast? = some Event.taskEnd)
      ∧ (x.2.countP Event.isCompute = 0 ∧ x.2.countP Event.isCompleted = 0
        ∧ x.2.countP Event.isError ≤ 1)
      ∧ ((x.1.surface = t.surface
          ∧ ¬ (x.2.countP Event.isNewSurface = 1 ∧ x.2.countP Event.isError = 0))
        ∨ (∃ surf, x.1.surface = some surf ∧ x.2.countP Event.isNewSurface = 1
          ∧ x.2.countP Event.isError = 0))) ?_ ?_ ?_ ?_ ?_ ?_ ?_
  all_goals
    intros
    simp [List.countP_cons, Event.isBegin, Event.isEnd, Event.isCompute, Event.isCompleted,
      Event.isError, Event.isNewSurface]

/-- The files the lookup phase opens and the streams it reads: none when no
cache file exists, otherwise the chosen file, once, read through the stream
built over it. -/
theorem lookupPhase_streams (R : SurfaceEnv Tools Move Wp Stl Surf)
    (t : SurfaceThread Tools Move Mach Wp Surf) :
    ((SurfaceThread.hasCache R t || SurfaceThread.hasBZ2Cache R t) = false →
      (SurfaceThread.lookupPhase R t).2 = [Event.taskBegin, Event.taskEnd])
    ∧ ((SurfaceThread.hasCache R t || SurfaceThread.hasBZ2Cache R t) = true →
      opens (SurfaceThread.lookupPhase R t).2 = [(SurfaceThread.cacheStream R t).file]
      ∧ (∀ inp ∈ streams (SurfaceThread.lookupPhase R t).2, inp = SurfaceThread.cacheStream R t)
      ∧ (R.iopen (SurfaceThread.cacheStream R t).file = true →
          (streams (SurfaceThread.lookupPhase R t).2).head?
            = some (SurfaceThread.cacheStream R t))) := by
  refine lookupPhase_cases R t
    (fun x => ((SurfaceThread.hasCache R t || SurfaceThread.hasBZ2Cache R t) = false →
        x.2 = [Event.taskBegin, Event.taskEnd])
      ∧ ((SurfaceThread.hasCache R t || SurfaceThread.hasBZ2Cache R t) = true →
        opens x.2 = [(SurfaceThread.cacheStream R t).file]
        ∧ (∀ inp ∈ streams x.2, inp = SurfaceThread.cacheStream R t)
        ∧ (R.iopen (SurfaceThread.cacheStream R t).file = true →
            (streams x.2).head? = some (SurfaceThread.cacheStream R t)))) ?_ ?_ ?_ ?_ ?_ ?_ ?_
  · intro h
    simp [h]
  all_goals
    intro h ho
    intros
    simp [h, ho, opens, streams, Event.asOpen, Event.asStream]

end LookupLemmas


/-! ## The worker and the reduction report -/

section WorkerTheorems

variable {Tools Move Mach Ctl Wp Stl Surf : Type}

/-- The lookup phase on a cache record that reads without error and whose hash
matches. -/
theorem lookupPhase_hit (R : SurfaceEnv Tools Move Wp Stl Surf)
    (t : SurfaceThread Tools Move Mach Wp Surf)
    (hsel : (SurfaceThread.hasCache R t || SurfaceThread.hasBZ2Cache R t) = true)
    (hopen : R.iopen (SurfaceThread.cacheStream R t).file = true)
    (stl : Stl) (hhdr : R.readHeader (SurfaceThread.cacheStream R t) = Except.ok stl)
    (hhash : R.getHash stl = R.computeHash t.sim)
    (body : Stl) (hbody : R.readBody (SurfaceThread.cacheStream R t) stl = Except.ok body)
    (surf : Surf) (hsurf : R.newElementSurface body = Except.ok surf) :
    SurfaceThread.lookupPhase R t
      = ({ t with surface := some surf },
          [Event.taskBegin, Event.iopen (SurfaceThread.cacheStream R t).file,
            Event.readHeader (SurfaceThread.cacheStream R t),
            Event.readBody (SurfaceThread.cacheStream R t), Event.newElementSurface,
            Event.taskEnd]) := by
  refine lookupPhase_cases R t (fun x => x = ({ t with surface := some surf },
          [Event.taskBegin, Event.iopen (SurfaceThread.cacheStream R t).file,
            Event.readHeader (SurfaceThread.cacheStream R t),
            Event.readBody (SurfaceThread.cacheStream R t), Event.newElementSurface,
            Event.taskEnd])) ?_ ?_ ?_ ?_ ?_ ?_ ?_
  · intro h
    simp [hsel] at h
  · intro _ h
    simp [hopen] at h
  · intro _ _ e h
    simp [hhdr] at h
  · intro _ _ stl0 h hx
    rw [hhdr] at h
    cases h
    exact absurd hhash hx
  · intro _ _ stl0 h _ e hb
    rw [hhdr] at h
    cases h
    simp [hbody] at hb
  · intro _ _ stl0 h _ body0 hb e hs
    rw [hhdr] at h
    cases h
    rw [hbody] at hb
    cases hb
    simp [hsurf] at hs
  · intro _ _ stl0 h _ body0 hb surf0 hs
    rw [hhdr] at h
    cases h
    rw [hbody] at hb
    cases hb
    rw [hsurf] at hs
    cases hs
    rfl

/-- The lookup phase on a cache record whose header reads and whose hash
differs from the one of the requested simulation. -/
theorem lookupPhase_mismatch (R : SurfaceEnv Tools Move Wp Stl Surf)
    (t : SurfaceThread Tools Move Mach Wp Surf)
    (hsel : (SurfaceThread.hasCache R t || SurfaceThread.hasBZ2Cache R t) = true)
    (hopen : R.iopen (SurfaceThread.cacheStream R t).file = true)
    (stl : Stl) (hhdr : R.readHeader (SurfaceThread.cacheStream R t) = Except.ok stl)
    (hhash : R.getHash stl ≠ R.computeHash t.sim) :
    SurfaceThread.lookupPhase R t
      = (t, [Event.taskBegin, Event.iopen (SurfaceThread.cacheStream R t).file,
            Event.readHeader (SurfaceThread.cacheStream R t), Event.taskEnd]) := by
  refine lookupPhase_cases R t (fun x => x = (t,
          [Event.taskBegin, Event.iopen (SurfaceThread.cacheStream R t).file,
            Event.readHeader (SurfaceThread.cacheStream R t), Event.taskEnd])) ?_ ?_ ?_ ?_ ?_ ?_ ?_
  · intro h
    simp [hsel] at h
  · intro _ h
    simp [hopen] at h
  · intro _ _ e h
    simp [hhdr] at h
  · intro _ _ stl0 _ _
    rfl
  · intro _ _ stl0 h hx
    rw [hhdr] at h
    cases h
    exact absurd hx hhash
  · intro _ _ stl0 h hx
    rw [hhdr] at h
    cases h
    exact absurd hx hhash
  · intro _ _ stl0 h hx
    rw [hhdr] at h
    cases h
    exact absurd hx hhash

/-- The lookup phase on a cache file that fails to open, to read or to become
a surface: the surface is left as it was and one error is logged. -/
theorem lookupPhase_failure (R : SurfaceEnv Tools Move Wp Stl Surf)
    (t : SurfaceThread Tools Move Mach Wp Surf)
    (hsel : (SurfaceThread.hasCache R t || SurfaceThread.hasBZ2Cache R t) = true)
    (hfail : R.iopen (SurfaceThread.cacheStream R t).file = false
      ∨ (∃ e, R.readHeader (SurfaceThread.cacheStream R t) = Except.error e)
      ∨ (∃ stl, R.readHeader (SurfaceThread.cacheStream R t) = Except.ok stl
          ∧ R.getHash stl = R.computeHash t.sim
          ∧ ((∃ e, R.readBody (SurfaceThread.cacheStream R t) stl = Except.error e)
            ∨ (∃ body e, R.readBody (SurfaceThread.cacheStream R t) stl = Except.ok body
                ∧ R.newElementSurface body = Except.error e)))) :
    (SurfaceThread.lookupPhase R t).1 = t
    ∧ (SurfaceThread.lookupPhase R t).2.countP Event.isError = 1 := by
  refine lookupPhase_cases R t (fun x => x.1 = t ∧ x.2.countP Event.isError = 1)
    ?_ ?_ ?_ ?_ ?_ ?_ ?_
  · intro h
    simp [hsel] at h
  · intro _ _
    simp [List.countP_cons, Event.isError]
  · intro _ _ _ _
    simp [List.countP_cons, Event.isError]
  · intro _ ho stl0 hs hx
    rcases hfail with h | ⟨e, h⟩ | ⟨stl1, h1, h2, _⟩
    · simp [ho] at h
    · simp [hs] at h
    · rw [hs] at h1
      cases h1
      exact absurd h2 hx
  · intro _ _ _ _ _ _ _
    simp [List.countP_cons, Event.isError]
  · intro _ _ _ _ _ _ _ _ _
    simp [List.countP_cons, Event.isError]
  · intro _ ho stl0 hs _ body0 hb surf0 hsf
    rcases hfail with h | ⟨e, h⟩ | ⟨stl1, h1, _, ⟨e, h3⟩ | ⟨body1, e, h3, h4⟩⟩
    · simp [ho] at h
    · simp [hs] at h
    · rw [hs] at h1
      cases h1
      simp [hb] at h3
    · rw [hs] at h1
      cases h1
      rw [hb] at h3
      cases h3
      simp [hsf] at h4

/-- C3: from an unset surface, with a cache file selected whose header reads
without error: when the stored hash equals `computeHash()` of the simulation
and the body reads and becomes a surface, `run` sets the surface from the
record and never calls `computeSurface`; when the stored hash differs, the body
is not read, no surface is built from the record, and `computeSurface` is
called exactly once, on the requested simulation, its result becoming the
surface. -/
theorem run_cache_validation (R : SurfaceEnv Tools Move Wp Stl Surf)
    (t : SurfaceThread Tools Move Mach Wp Surf)
    (hnone : t.surface = none)
    (hsel : (SurfaceThread.hasCache R t || SurfaceThread.hasBZ2Cache R t) = true)
    (hopen : R.iopen (SurfaceThread.cacheStream R t).file = true)
    (stl : Stl) (hhdr : R.readHeader (SurfaceThread.cacheStream R t) = Except.ok stl) :
    (R.getHash stl = R.computeHash t.sim →
      ∀ body surf, R.readBody (SurfaceThread.cacheStream R t) stl = Except.ok body →
        R.newElementSurface body = Except.ok surf →
        (SurfaceThread.run R t).1.surface = some surf
        ∧ (SurfaceThread.run R t).2.countP Event.isCompute = 0)
    ∧ (R.getHash stl ≠ R.computeHash t.sim →
        (SurfaceThread.run R t).2.countP Event.isReadBody = 0
        ∧ (SurfaceThread.run R t).2.countP Event.isNewSurface = 0
        ∧ (SurfaceThread.run R t).2.countP Event.isCompute = 1
        ∧ (SurfaceThread.run R t).1.surface
            = (CutSim.computeSurface R t.cutSim t.sim).toOption.join) := by
  constructor
  · intro hhash body surf hbody hsurf
    have hl := lookupPhase_hit R t hsel hopen stl hhdr hhash body hbody surf hsurf
    rw [run_events, run_state, hl]
    rw [computePhase_some R _ surf rfl]
    simp [List.countP_cons, Event.isCompute]
  · intro hhash
    have hl := lookupPhase_mismatch R t hsel hopen stl hhdr hhash
    rw [run_events, run_state, hl]
    obtain ⟨h1, _, post, h3, h4, _, _, _, h8, h9, _⟩ := computePhase_none R t hnone
    rw [h1, h3]
    simp [List.countP_append, List.countP_cons, Event.isCompute, Event.isReadBody,
      Event.isNewSurface, h4, h8, h9]

/-- Evaluation of C3 on a compressed record with the matching hash and on a
plain record with another hash. -/
theorem run_cache_validation_witness :
    ((SurfaceThread.run (demoEnv true true "h1" true) demoThread).1.surface = some 7
      ∧ (SurfaceThread.run (demoEnv true true "h1" true) demoThread).2.countP
          Event.isCompute = 0)
    ∧ ((SurfaceThread.run (demoEnv true false "h0" true) demoThread).2.countP
          Event.isReadBody = 0
      ∧ (SurfaceThread.run (demoEnv true false "h0" true) demoThread).2.countP
          Event.isNewSurface = 0
      ∧ (SurfaceThread.run (demoEnv true false "h0" true) demoThread).2.countP
          Event.isCompute = 1
      ∧ (SurfaceThread.run (demoEnv true false "h0" true) demoThread).1.surface
          = (CutSim.computeSurface (demoEnv true false "h0" true) demoThread.cutSim
              demoThread.sim).toOption.join) :=
  ⟨(run_cache_validation (demoEnv true true "h1" true) demoThread rfl rfl rfl "h1" rfl).1
      rfl "h1" 7 rfl rfl,
    (run_cache_validation (demoEnv true false "h0" true) demoThread rfl rfl rfl "h0" rfl).2
      (by decide)⟩

/-- C6: from an unset surface, when the selected cache file fails to open, its
header fails to read, or its hash matches and the body fails to read or to
become a surface, the lookup phase ends with the error logged, its scope
closed and the surface still unset; `run` then calls `computeSurface` once,
takes its result as the surface and signals completion. -/
theorem run_cache_failure (R : SurfaceEnv Tools Move Wp Stl Surf)
    (t : SurfaceThread Tools Move Mach Wp Surf)
    (hnone : t.surface = none)
    (hsel : (SurfaceThread.hasCache R t || SurfaceThread.hasBZ2Cache R t) = true)
    (hfail : R.iopen (SurfaceThread.cacheStream R t).file = false
      ∨ (∃ e, R.readHeader (SurfaceThread.cacheStream R t) = Except.error e)
      ∨ (∃ stl, R.readHeader (SurfaceThread.cacheStream R t) = Except.ok stl
          ∧ R.getHash stl = R.computeHash t.sim
          ∧ ((∃ e, R.readBody (SurfaceThread.cacheStream R t) stl = Except.error e)
            ∨ (∃ body e, R.readBody (SurfaceThread.cacheStream R t) stl = Except.ok body
                ∧ R.newElementSurface body = Except.error e)))) :
    (SurfaceThread.lookupPhase R t).1.surface = none
    ∧ (SurfaceThread.lookupPhase R t).2.countP Event.isError = 1
    ∧ (SurfaceThread.lookupPhase R t).2.getLast? = some Event.taskEnd
    ∧ (∃ post, (SurfaceThread.run R t).2
        = (SurfaceThread.lookupPhase R t).2 ++ Event.computeSurface :: post)
    ∧ (SurfaceThread.run R t).2.countP Event.isCompute = 1
    ∧ (SurfaceThread.run R t).2.getLast? = some Event.completed
    ∧ (SurfaceThread.run R t).1.surface
        = (CutSim.computeSurface R t.cutSim t.sim).toOption.join := by
  obtain ⟨hst, herr⟩ := lookupPhase_failure R t hsel hfail
  obtain ⟨_, ⟨_, _, _, hlast⟩, ⟨hcomp, _, _⟩, _⟩ := lookupPhase_summary R t
  obtain ⟨h1, _, post, h3, h4, _⟩ := computePhase_none R t hnone
  refine ⟨by rw [hst, hnone], herr, hlast, ?_, ?_, ?_, ?_⟩
  · refine ⟨post ++ [Event.completed], ?_⟩
    rw [run_events, hst, h3]
    simp
  · rw [run_events, hst, h3]
    simp [List.countP_append, List.countP_cons, Event.isCompute, hcomp, h4]
  · rw [run_events, List.getLast?_append]
    simp
  · rw [run_state, hst, h1]

/-- Evaluation of C6 on a compressed record with the matching hash and a
truncated body. -/
theorem run_cache_failure_witness :
    (SurfaceThread.lookupPhase (demoEnv true true "h1" false) demoThread).1.surface = none
    ∧ (SurfaceThread.lookupPhase (demoEnv true true "h1" false) demoThread).2.countP
        Event.isError = 1
    ∧ (SurfaceThread.lookupPhase (demoEnv true true "h1" false) demoThread).2.getLast?
        = some Event.taskEnd
    ∧ (∃ post, (SurfaceThread.run (demoEnv true true "h1" false) demoThread).2
        = (SurfaceThread.lookupPhase (demoEnv true true "h1" false) demoThread).2
          ++ Event.computeSurface :: post)
    ∧ (SurfaceThread.run (demoEnv true true "h1" false) demoThread).2.countP
        Event.isCompute = 1
    ∧ (SurfaceThread.run (demoEnv true true "h1" false) demoThread).2.getLast?
        = some Event.completed
    ∧ (SurfaceThread.run (demoEnv true true "h1" false) demoThread).1.surface
        = (CutSim.computeSurface (demoEnv true true "h1" false) demoThread.cutSim
            demoThread.sim).toOption.join :=
  run_cache_failure (demoEnv true true "h1" false) demoThread rfl rfl
    (Or.inr (Or.inr ⟨"h1", rfl, rfl, Or.inl ⟨"truncated", rfl⟩⟩))

/-- C8: whatever the lookup and the computation do, `run` returns, and its
last event is its one `completed()` signal; from an unset surface, the surface
is set at that point exactly when the lookup built it from the cache record
without error or `computeSurface` was called and returned a surface, and it is
unset when the lookup logged an error and the computation returned none. -/
theorem run_completes (R : SurfaceEnv Tools Move Wp Stl Surf)
    (t : SurfaceThread Tools Move Mach Wp Surf) :
    (SurfaceThread.run R t).2.getLast? = some Event.completed
    ∧ (SurfaceThread.run R t).2.countP Event.isCompleted = 1
    ∧ (SurfaceThread.run R t).2.countP Event.isError ≤ 2
    ∧ (t.surface = none →
        ((SurfaceThread.run R t).1.surface.isSome = true ↔
          ((SurfaceThread.lookupPhase R t).2.countP Event.isNewSurface = 1
            ∧ (SurfaceThread.lookupPhase R t).2.countP Event.isError = 0)
          ∨ ((SurfaceThread.run R t).2.countP Event.isCompute = 1
            ∧ ∃ surf, CutSim.computeSurface R t.cutSim t.sim = Except.ok (some surf))))
    ∧ (t.surface = none →
        (SurfaceThread.lookupPhase R t).2.countP Event.isError = 1 →
        (∀ surf, CutSim.computeSurface R t.cutSim t.sim ≠ Except.ok (some surf)) →
        (SurfaceThread.run R t).1.surface = none) := by
  obtain ⟨⟨hcs, hsim, _⟩, _, ⟨hcomp, hdone, herr⟩, hsurf⟩ := lookupPhase_summary R t
  have hframe := computePhase_frame R (SurfaceThread.lookupPhase R t).1
  have key : t.surface = none →
      ((SurfaceThread.run R t).1.surface.isSome = true ↔
        ((SurfaceThread.lookupPhase R t).2.countP Event.isNewSurface = 1
          ∧ (SurfaceThread.lookupPhase R t).2.countP Event.isError = 0)
        ∨ ((SurfaceThread.run R t).2.countP Event.isCompute = 1
          ∧ ∃ surf, CutSim.computeSurface R t.cutSim t.sim = Except.ok (some surf))) := by
    intro hnone
    rw [run_events, run_state]
    rcases hsurf with ⟨hkeep, hnot⟩ | ⟨surf, hset, hnew, hno⟩
    · have hn : (SurfaceThread.lookupPhase R t).1.surface = none := by rw [hkeep, hnone]
      obtain ⟨h1, _, post, h3, h4, _⟩ := computePhase_none R _ hn
      rw [h1, h3, hcs, hsim]
      have hcount : ((SurfaceThread.lookupPhase R t).2 ++ Event.computeSurface :: post
          ++ [Event.completed]).countP Event.isCompute = 1 := by
        simp [List.countP_append, List.countP_cons, hcomp, h4, Event.isCompute]
      rw [hcount]
      constructor
      · intro hs
        right
        refine ⟨rfl, ?_⟩
        cases hc : CutSim.computeSurface R t.cutSim t.sim with
        | error e => simp [hc, Except.toOption] at hs
        | ok o =>
          cases o with
          | none => simp [hc, Except.toOption] at hs
          | some surf => exact ⟨surf, rfl⟩
      · intro h
        rcases h with h | ⟨_, surf, hc⟩
        · exact absurd h hnot
        · simp [hc, Except.toOption]
    · rw [computePhase_some R _ surf hset, hset]
      simp [hnew, hno]
  refine ⟨?_, ?_, ?_, key, ?_⟩
  · rw [run_events, List.getLast?_append]
    simp
  · rw [run_events]
    simp [List.countP_append, hdone, hframe.2.2.2.1, Event.isCompleted]
  · rw [run_events]
    have hc : (SurfaceThread.computePhase R (SurfaceThread.lookupPhase R t).1).2.countP
        Event.isError ≤ 1 := by
      unfold SurfaceThread.computePhase
      split
      · simp
      · split <;> simp [List.countP_cons, Event.isError]
    simp only [List.countP_append, List.countP_cons, List.countP_nil, Event.isError]
    simp only [Bool.false_eq_true, if_false]
    omega
  · intro hnone herr1 hfail
    have h := key hnone
    cases hs : (SurfaceThread.run R t).1.surface with
    | none => rfl
    | some surf =>
      rw [hs] at h
      rcases h.mp rfl with ⟨_, h0⟩ | ⟨_, surf0, hc⟩
      · omega
      · exact absurd hc (hfail surf0)

/-- Evaluation of C8 on a worker with both cache files and a matching hash. -/
theorem run_completes_witness :
    (SurfaceThread.run (demoEnv true true "h1" true) demoThread).2.getLast?
        = some Event.completed
    ∧ (SurfaceThread.run (demoEnv true true "h1" true) demoThread).2.countP
        Event.isCompleted = 1
    ∧ (SurfaceThread.run (demoEnv true true "h1" true) demoThread).1.surface = some 7
    ∧ (SurfaceThread.run (demoEnv true true "h1" false) demoThread).1.surface = some 42
    ∧ ((SurfaceThread.run (demoEnv true true "h1" true) demoThread).1.surface.isSome = true ↔
        ((SurfaceThread.lookupPhase (demoEnv true true "h1" true) demoThread).2.countP
            Event.isNewSurface = 1
          ∧ (SurfaceThread.lookupPhase (demoEnv true true "h1" true) demoThread).2.countP
            Event.isError = 0)
        ∨ ((SurfaceThread.run (demoEnv true true "h1" true) demoThread).2.countP
            Event.isCompute = 1
          ∧ ∃ surf, CutSim.computeSurface (demoEnv true true "h1" true) demoThread.cutSim
              demoThread.sim = Except.ok (some surf))) :=
  ⟨(run_completes (demoEnv true true "h1" true) demoThread).1,
    (run_completes (demoEnv true true "h1" true) demoThread).2.1,
    by decide, by decide,
    (run_completes (demoEnv true true "h1" true) demoThread).2.2.2.1 rfl⟩

@[simp]
theorem opens_append (a b : List (Event Move)) : opens (a ++ b) = opens a ++ opens b := by
  simp [opens]

@[simp]
theorem streams_append (a b : List (Event Move)) :
    streams (a ++ b) = streams a ++ streams b := by
  simp [streams]

/-- C5: the candidate path is the file name with its extension swapped for
`stl`.  When the compressed variant exists, the one file opened is the
compressed one and every codec read goes through the stream with the
decompressor over it, whether or not the plain file exists; when only the plain
file exists it is the one opened, and read without a decompressor; when neither
exists nothing is opened or read, the lookup scope is empty, and a worker whose
surface is unset goes on to `computeSurface` at once. -/
theorem run_cache_selection (R : SurfaceEnv Tools Move Wp Stl Surf)
    (t : SurfaceThread Tools Move Mach Wp Surf) :
    SurfaceThread.stlCache R t = R.swapExtension t.filename "stl"
    ∧ (R.fileExists (SurfaceThread.stlCache R t ++ ".bz2") = true →
        opens (SurfaceThread.run R t).2 = [SurfaceThread.stlCache R t ++ ".bz2"]
        ∧ (∀ inp ∈ streams (SurfaceThread.run R t).2,
            inp = ⟨true, SurfaceThread.stlCache R t ++ ".bz2"⟩)
        ∧ (R.iopen (SurfaceThread.stlCache R t ++ ".bz2") = true →
            (streams (SurfaceThread.run R t).2).head?
              = some ⟨true, SurfaceThread.stlCache R t ++ ".bz2"⟩))
    ∧ (R.fileExists (SurfaceThread.stlCache R t ++ ".bz2") = false →
        R.fileExists (SurfaceThread.stlCache R t) = true →
        opens (SurfaceThread.run R t).2 = [SurfaceThread.stlCache R t]
        ∧ (∀ inp ∈ streams (SurfaceThread.run R t).2,
            inp = ⟨false, SurfaceThread.stlCache R t⟩)
        ∧ (R.iopen (SurfaceThread.stlCache R t) = true →
            (streams (SurfaceThread.run R t).2).head?
              = some ⟨false, SurfaceThread.stlCache R t⟩))
    ∧ (R.fileExists (SurfaceThread.stlCache R t ++ ".bz2") = false →
        R.fileExists (SurfaceThread.stlCache R t) = false →
        opens (SurfaceThread.run R t).2 = []
        ∧ streams (SurfaceThread.run R t).2 = []
        ∧ (SurfaceThread.lookupPhase R t).2 = [Event.taskBegin, Event.taskEnd]
        ∧ (t.surface = none → ∃ post, (SurfaceThread.run R t).2
            = [Event.taskBegin, Event.taskEnd, Event.computeSurface] ++ post)) := by
  have hframe := computePhase_frame R (SurfaceThread.lookupPhase R t).1
  obtain ⟨hno, hsel⟩ := lookupPhase_streams R t
  have ho : opens (SurfaceThread.run R t).2 = opens (SurfaceThread.lookupPhase R t).2 := by
    rw [run_events, opens_append, opens_append, hframe.2.2.2.2.2.2.1]
    simp [opens, Event.asOpen]
  have hs : streams (SurfaceThread.run R t).2 = streams (SurfaceThread.lookupPhase R t).2 := by
    rw [run_events, streams_append, streams_append, hframe.2.2.2.2.2.2.2]
    simp [streams, Event.asStream]
  rw [ho, hs]
  refine ⟨rfl, ?_, ?_, ?_⟩
  · intro hbz
    have h := hsel (by simp [SurfaceThread.hasBZ2Cache, hbz])
    simpa [SurfaceThread.cacheStream, SurfaceThread.hasBZ2Cache, hbz] using h
  · intro hbz hplain
    have h := hsel (by simp [SurfaceThread.hasCache, hplain])
    simpa [SurfaceThread.cacheStream, SurfaceThread.hasBZ2Cache, hbz] using h
  · intro hbz hplain
    have h := hno (by simp [SurfaceThread.hasCache, SurfaceThread.hasBZ2Cache, hbz, hplain])
    refine ⟨by simp [h, opens, Event.asOpen], by simp [h, streams, Event.asStream], h, ?_⟩
    intro hnone
    have hst : (SurfaceThread.lookupPhase R t).1.surface = none := by
      rcases (lookupPhase_summary R t).2.2.2 with ⟨hk, _⟩ | ⟨surf, _, hnew, _⟩
      · rw [hk, hnone]
      · simp [h, List.countP_cons, Event.isNewSurface] at hnew
    obtain ⟨_, _, post, h3, _⟩ := computePhase_none R _ hst
    refine ⟨post ++ [Event.completed], ?_⟩
    rw [run_events, h, h3]
    simp

/-- Evaluation of C5 with both cache files, with the plain one only, and with
none. -/
theorem run_cache_selection_witness :
    opens (SurfaceThread.run (demoEnv true true "h1" true) demoThread).2 = ["part.stl.bz2"]
    ∧ streams (SurfaceThread.run (demoEnv true true "h1" true) demoThread).2
        = [⟨true, "part.stl.bz2"⟩, ⟨true, "part.stl.bz2"⟩]
    ∧ opens (SurfaceThread.run (demoEnv true false "h1" true) demoThread).2 = ["part.stl"]
    ∧ streams (SurfaceThread.run (demoEnv true false "h1" true) demoThread).2
        = [⟨false, "part.stl"⟩, ⟨false, "part.stl"⟩]
    ∧ (SurfaceThread.run (demoEnv false false "h1" true) demoThread).2
        = [Event.taskBegin, Event.taskEnd, Event.computeSurface, Event.completed] := by
  have h := (run_cache_selection (demoEnv true true "h1" true) demoThread).2.1 rfl
  exact ⟨h.1, by decide, by decide, by decide, by decide⟩

/-- C10: `computeToolPath` and the lookup phase of `run` each open exactly one
`Task` scope, as their first event, and close exactly one, as their last
event, on every path, so the scope depth after each is the depth on entry; the
lookup phase never calls `computeSurface`, which `run` calls only after the
scope is closed, and `run` opens and closes no other scope itself. -/
theorem task_scopes_balanced (E : Collab Tools Move Mach Ctl) (tools : Tools)
    (files : List String) (cs : CutSim Tools Move Mach)
    (R : SurfaceEnv Tools Move Wp Stl Surf) (t : SurfaceThread Tools Move Mach Wp Surf) :
    ((computeToolPath E tools files cs).2.2.countP Event.isBegin = 1
      ∧ (computeToolPath E tools files cs).2.2.countP Event.isEnd = 1
      ∧ (computeToolPath E tools files cs).2.2.head? = some Event.taskBegin
      ∧ (computeToolPath E tools files cs).2.2.getLast? = some Event.taskEnd
      ∧ (computeToolPath E tools files cs).2.1.depth = cs.depth)
    ∧ ((SurfaceThread.lookupPhase R t).2.countP Event.isBegin = 1
      ∧ (SurfaceThread.lookupPhase R t).2.countP Event.isEnd = 1
      ∧ (SurfaceThread.lookupPhase R t).2.head? = some Event.taskBegin
      ∧ (SurfaceThread.lookupPhase R t).2.getLast? = some Event.taskEnd
      ∧ (SurfaceThread.lookupPhase R t).1.cutSim.depth = t.cutSim.depth)
    ∧ ((SurfaceThread.lookupPhase R t).2.countP Event.isCompute = 0
      ∧ (SurfaceThread.run R t).2
          = (SurfaceThread.lookupPhase R t).2
            ++ (SurfaceThread.computePhase R (SurfaceThread.lookupPhase R t).1).2
            ++ [Event.completed]
      ∧ (SurfaceThread.computePhase R (SurfaceThread.lookupPhase R t).1).2.countP
          Event.isBegin = 0
      ∧ (SurfaceThread.computePhase R (SurfaceThread.lookupPhase R t).1).2.countP
          Event.isEnd = 0
      ∧ (SurfaceThread.run R t).2.countP Event.isBegin = 1
      ∧ (SurfaceThread.run R t).2.countP Event.isEnd = 1
      ∧ (SurfaceThread.run R t).1.cutSim.depth = t.cutSim.depth) := by
  obtain ⟨⟨hcs, _, _⟩, ⟨hb, he, hh, hl⟩, ⟨hcomp, _, _⟩, _⟩ := lookupPhase_summary R t
  obtain ⟨f1, f2, f3, _⟩ := computePhase_frame R (SurfaceThread.lookupPhase R t).1
  refine ⟨computeToolPath_scope E tools files cs, ⟨hb, he, hh, hl, by rw [hcs]⟩,
    hcomp, rfl, f2, f3, ?_, ?_, ?_⟩
  · rw [run_events]
    simp [List.countP_append, hb, f2, Event.isBegin]
  · rw [run_events]
    simp [List.countP_append, he, f3, Event.isEnd]
  · rw [run_state, f1, hcs]

/-- The percentage reported for a surface that had elements: the exact value
of `(N - M) / N * 100`. -/
theorem reductionPercent_pos (n m : Nat) (hn : 0 < n) :
    reductionPercent (Double.ofCount n) m
      = Double.finite (((n : ℚ) - (m : ℚ)) / (n : ℚ) * 100) := by
  have h : (n : ℚ) ≠ 0 := by
    exact_mod_cast Nat.pos_iff_ne_zero.mp hn
  simp [reductionPercent, Double.ofCount, Double.sub, Double.div, Double.mul, h]

/-- The percentage computed for a surface that is empty before and after the
reduction: `0.0 / 0.0 * 100`, which is NaN. -/
theorem reductionPercent_zero : reductionPercent (Double.ofCount 0) 0 = Double.nan := by
  simp [reductionPercent, Double.ofCount, Double.sub, Double.div, Double.mul]

/-- C4, at the failing input: on a surface with no element (`N = 0`, and so
`M = 0`) `reduceSurface` divides by the starting count without a guard and
reports NaN, not 0. -/
theorem reduceSurface_empty_reports_nan :
    (CutSim.reduceSurface (demoEnv false false "h1" true) 0 demoCutSim).2.2
        = [Event.taskBegin, Event.taskUpdate "Reducing...", Event.reduce, Event.taskEnd,
            Event.logReduction 0 Double.nan]
    ∧ Double.nan ≠ Double.finite 0 := by
  refine ⟨?_, by simp⟩
  simp [CutSim.reduceSurface, demoEnv, reductionPercent_zero]

end WorkerTheorems

end CAMotics
